import Mathlib

/-!
Verification of the Library-Management-System loan-command pipeline.

The repository's `src/` tree contains the React/TypeScript frontend
(`frontend/src/services/*.ts`, pages, types) and README/config files for the
backend microservices; the backend loan state machine itself (Django
`loans_service`) is not present in `src/`.  Frontend behaviour (the
fire-and-forget publishers in `loans.service.ts` / `books.service.ts` /
`rabbitmq.service.ts`) is embedded directly from the source; the
command-processing pipeline (state machine, dedup, availability ledger, fine
calculator) is modelled from the specification, with each such definition
marked `Modelled from the spec:` in its doc comment.

Dates are modelled as integer day counts; money as natural-number amounts
(the fine rate and amounts are integral in all spec scenarios).
-/

namespace LMS

/-- Loan status, from `src/frontend/src/types/loan.types.ts` (`LoanStatus`). -/
inductive LoanStatus
  | ACTIVE
  | RETURNED
  | OVERDUE
  | RENEWED
  deriving DecidableEq, Repr

/-- History action, from `src/frontend/src/types/loan.types.ts` (`LoanHistory.action`). -/
inductive HistoryAction
  | CREATED
  | RENEWED
  | RETURNED
  | OVERDUE
  | FINE_CALCULATED
  | FINE_PAID
  deriving DecidableEq, Repr

/-- A loan record, fields from `src/frontend/src/types/loan.types.ts`
(`Loan`), restricted to the stored fields the pipeline mutates (the computed
read-side fields `is_overdue`, `days_until_due`, `can_renew` are derived, see
`can_renew` below).  Dates are integer day counts. -/
structure Loan where
  id : Nat
  user_id : Nat
  book_id : Nat
  loan_date : Int
  due_date : Int
  return_date : Option Int
  status : LoanStatus
  fine_amount : Nat
  fine_paid : Bool
  renewal_count : Nat
  max_renewals : Nat
  deriving DecidableEq, Repr

/-- Modelled from the spec: `BookAvailability — derived counter tied to a
Book. Attributes: book id, total copies, available copies.` -/
structure BookAvailability where
  book_id : Nat
  total_copies : Nat
  available_copies : Nat
  deriving DecidableEq, Repr

/-- Modelled from the spec: `LoanHistoryEntry — append-only audit record`
with `loan id, action, human-readable detail, actor id, timestamp`; the
detail/timestamp strings play no role in any claim and are omitted. -/
structure HistoryEntry where
  loan_id : Nat
  action : HistoryAction
  actor : Nat
  deriving DecidableEq, Repr

/-- A user record: id and per-user loan capacity, from
`src/frontend/src/types` (`User.max_loans`). -/
structure UserRec where
  id : Nat
  max_loans : Nat
  deriving DecidableEq, Repr

/-- Modelled from the spec: the fixed configuration constants — the fixed
loan period (`e.g. 14 days`), the fine `daily_rate`, and the per-loan
`max renewals (fixed per loan at creation)`. -/
structure Config where
  loan_period : Nat
  daily_rate : Nat
  max_renewals : Nat
  deriving DecidableEq, Repr

/-- Error taxonomy, from spec §7. -/
inductive ErrKind
  | ValidationError
  | CapacityError
  | UnavailableError
  | RenewalLimitError
  | NotRenewableError
  | ConflictError
  | TransientError
  deriving DecidableEq, Repr

/-- Outcome of processing one command: committed, acknowledged as an
idempotent-replay no-op, or rejected with an error kind. -/
inductive Outcome
  | ok
  | okNoop
  | err (e : ErrKind)
  deriving DecidableEq, Repr

/-! ## Fine calculator (§4.4) -/

/-- Modelled from the spec: `days_overdue = max(0, today − due_date)`
(calendar days).  The frontend computes the same quantity with
`differenceInDays(new Date(), new Date(loan.due_date))` in the overdue
dashboard (`src/unnamed/part_005`). -/
def daysOverdue (today due_date : Int) : Nat :=
  (today - due_date).toNat

/-- Modelled from the spec: `Pure function: fine = days_overdue ×
daily_rate, with daily_rate a fixed configuration constant.` -/
def fineFor (cfg : Config) (today due_date : Int) : Nat :=
  daysOverdue today due_date * cfg.daily_rate

/-! ## Read-side derived field (§6) -/

/-- Modelled from the spec: the read API's derived field
`can_renew = status≠RETURNED ∧ renewal_count<max_renewals` (`GET /loans/{id}`,
spec §6); the frontend consumes it as a stored field of `Loan`
(`loan.types.ts`) and gates the Renew button on it (`MyLoans.tsx`). -/
def can_renew (l : Loan) : Bool :=
  l.status != LoanStatus.RETURNED && l.renewal_count < l.max_renewals

end LMS

namespace Frontend

/-!
The frontend write path, embedded from
`src/frontend/src/services/rabbitmq.service.ts`,
`src/frontend/src/services/loans.service.ts` and
`src/frontend/src/services/books.service.ts`.
-/

/-- The JSON payloads the six write operations publish, shapes from
`loans.service.ts` and `books.service.ts`. -/
inductive Payload
  | createLoanBody (user_id book_id : Nat) (notes : Option String)
  | loanIdUserId (loan_id user_id : Nat)
  | bookFields (isbn title author : String) (total_copies available_copies : Nat)
  | bookIdWithData (book_id : Nat) (isbn title author : String)
      (total_copies available_copies : Nat)
  | bookIdOnly (book_id : Nat)
  deriving DecidableEq, Repr

/-- One STOMP publish: destination string and JSON body
(`RabbitMQService.publish`). -/
structure Published where
  destination : String
  body : Payload
  deriving DecidableEq, Repr

/-- `RabbitMQService.sendToExchange`: `destination =
/exchange/library_events/<routingKey>`, then `publish`. -/
def sendToExchange (routingKey : String) (body : Payload) : Published :=
  { destination := "/exchange/library_events/" ++ routingKey, body := body }

/-- The value a frontend write call resolves to, as a JS-object field map:
each service returns `Promise.resolve({ message: ... })`, so the object has a
single `message` key.  Field access (`response.due_date`, `result.fine`) is
association-list lookup; an absent key reads as `undefined` (`none`). -/
def QueuedResponse := List (String × String)

/-- JS property read on the resolved object: `undefined` (`none`) when the
key is absent. -/
def getField (r : List (String × String)) (key : String) : Option String :=
  (r.find? (fun kv => kv.1 == key)).map (fun kv => kv.2)

/-- `loansService.createLoan`: publishes `loan.create_request` and returns
the already-resolved `{ message: 'Loan creation queued' }`. -/
def createLoan (user_id book_id : Nat) (notes : Option String) :
    List Published × List (String × String) :=
  ([sendToExchange "loan.create_request" (.createLoanBody user_id book_id notes)],
    [("message", "Loan creation queued")])

/-- `loansService.returnLoan`. -/
def returnLoan (id userId : Nat) : List Published × List (String × String) :=
  ([sendToExchange "loan.return_request" (.loanIdUserId id userId)],
    [("message", "Return queued")])

/-- `loansService.renewLoan`. -/
def renewLoan (id userId : Nat) : List Published × List (String × String) :=
  ([sendToExchange "loan.renew_request" (.loanIdUserId id userId)],
    [("message", "Renewal queued")])

/-- `booksService.createBook`. -/
def createBook (isbn title author : String) (total available : Nat) :
    List Published × List (String × String) :=
  ([sendToExchange "book.create_request" (.bookFields isbn title author total available)],
    [("message", "Creation queued")])

/-- `booksService.updateBook`. -/
def updateBook (id : Nat) (isbn title author : String) (total available : Nat) :
    List Published × List (String × String) :=
  ([sendToExchange "book.update_request"
      (.bookIdWithData id isbn title author total available)],
    [("message", "Update queued")])

/-- `booksService.deleteBook`. -/
def deleteBook (id : Nat) : List Published × List (String × String) :=
  ([sendToExchange "book.delete_request" (.bookIdOnly id)],
    [("message", "Deletion queued")])

end Frontend

namespace LMS

/-! ## Pipeline state and commands (§3, §4, §6)

The full backend command pipeline is absent from `src/`; every definition
below is modelled from the spec's contracts. -/

/-- Modelled from the spec: the committed state the pipeline mutates —
loans, the availability ledger, users, the append-only history (newest entry
first), the set of committed dedup keys (§4.1), and the id allocators
(`loan id (assigned at commit)`). -/
structure LMSState where
  loans : List Loan
  books : List BookAvailability
  users : List UserRec
  history : List HistoryEntry
  committedKeys : List String
  nextLoanId : Nat
  nextBookId : Nat
  deriving DecidableEq, Repr

/-- The empty initial state. -/
def initState : LMSState :=
  { loans := [], books := [], users := [], history := [],
    committedKeys := [], nextLoanId := 0, nextBookId := 0 }

/-- Modelled from the spec: the command envelopes of §6, each carrying its
dedup key (§4.1); `today` stands for the command's processing date, and the
overdue sweep is the internal time-driven pseudo-command of §4.3. -/
inductive Command
  | createUser (dk : String) (user_id max_loans : Nat)
  | createLoan (dk : String) (user_id book_id : Nat) (today : Int)
  | returnLoan (dk : String) (loan_id user_id : Nat) (today : Int)
  | renewLoan (dk : String) (loan_id user_id : Nat)
  | createBook (dk : String) (total_copies : Nat)
  | updateBook (dk : String) (book_id total_copies : Nat)
  | deleteBook (dk : String) (book_id : Nat)
  | overdueSweep (today : Int)
  deriving DecidableEq, Repr

/-- Replace the first element satisfying `p` by its image under `f`. -/
def replaceFirst (p : α → Bool) (f : α → α) : List α → List α
  | [] => []
  | x :: xs => if p x then f x :: xs else x :: replaceFirst p f xs

/-- A loan in status ACTIVE, RENEWED or OVERDUE counts against the book's
availability; a RETURNED one does not (spec §8 sum invariant). -/
def statusOutstanding : LoanStatus → Bool
  | .RETURNED => false
  | _ => true

/-- The outstanding loans of book `b` among `loans`. -/
def outstandingFor (b : Nat) (l : Loan) : Bool :=
  l.book_id == b && statusOutstanding l.status

/-- Modelled from the spec: `the user's active-loan count` used by the
Create capacity check — the user's loans not yet RETURNED. -/
def userActiveCount (loans : List Loan) (u : Nat) : Nat :=
  loans.countP (fun l => l.user_id == u && statusOutstanding l.status)

/-- First user record with the given id, if any. -/
def lookupUser (users : List UserRec) (u : Nat) : Option UserRec :=
  users.find? (fun r => r.id == u)

/-- First availability record with the given book id, if any. -/
def lookupBook (books : List BookAvailability) (b : Nat) : Option BookAvailability :=
  books.find? (fun r => r.book_id == b)

/-- Modelled from the spec: `user.create` ingress — records the user with
their `max_loans` capacity. -/
def execCreateUser (s : LMSState) (u maxLoans : Nat) : LMSState × Outcome :=
  ({ s with users := ⟨u, maxLoans⟩ :: s.users }, .ok)

/-- Increment a book's available copies by one. -/
def bumpAvail (r : BookAvailability) : BookAvailability :=
  { r with available_copies := r.available_copies + 1 }

/-- Decrement a book's available copies by one. -/
def dropAvail (r : BookAvailability) : BookAvailability :=
  { r with available_copies := r.available_copies - 1 }

/-- Modelled from the spec, §4.3 Create: `fails with CapacityError if the
user's active-loan count ≥ their max_loans; fails with UnavailableError if
available_copies = 0; otherwise atomically decrements availability, creates
Loan in ACTIVE with due_date = loan_date + fixed_loan_period,
renewal_count = 0, writes a CREATED history entry.`  An unknown user or book
is a malformed command (ValidationError, §7). -/
def execCreateLoan (cfg : Config) (s : LMSState) (u b : Nat) (today : Int) :
    LMSState × Outcome :=
  match lookupUser s.users u with
  | none => (s, .err .ValidationError)
  | some ur =>
    if ur.max_loans ≤ userActiveCount s.loans u then
      (s, .err .CapacityError)
    else
      match lookupBook s.books b with
      | none => (s, .err .ValidationError)
      | some bk =>
        if bk.available_copies = 0 then
          (s, .err .UnavailableError)
        else
          ({ s with
              loans :=
                { id := s.nextLoanId, user_id := u, book_id := b,
                  loan_date := today,
                  due_date := today + (cfg.loan_period : Int),
                  return_date := none, status := .ACTIVE,
                  fine_amount := 0, fine_paid := false,
                  renewal_count := 0, max_renewals := cfg.max_renewals } :: s.loans,
              books := replaceFirst (fun r => r.book_id == b) dropAvail s.books,
              history := ⟨s.nextLoanId, .CREATED, u⟩ :: s.history,
              nextLoanId := s.nextLoanId + 1 }, .ok)

/-- The per-loan effect of a committed return: status RETURNED,
`return_date = today`, fine as computed by the Fine Calculator from the
loan's current due date. -/
def markReturned (cfg : Config) (today : Int) (x : Loan) : Loan :=
  { x with status := .RETURNED, return_date := some today,
           fine_amount := fineFor cfg today x.due_date }

/-- Modelled from the spec, §4.3 Return: `requires loan exists and status ∈
{ACTIVE, RENEWED, OVERDUE}; computes days_overdue = max(0, today −
due_date); if days_overdue > 0, invokes the Fine Calculator and writes a
FINE_CALCULATED entry before the RETURNED transition; sets return_date =
today, increments availability by 1, writes a RETURNED entry.  Returning a
loan already RETURNED is a conflict.` -/
def execReturnLoan (cfg : Config) (s : LMSState) (lid u : Nat) (today : Int) :
    LMSState × Outcome :=
  match s.loans.find? (fun l => l.id == lid) with
  | none => (s, .err .ValidationError)
  | some l =>
    if l.status = .RETURNED then
      (s, .err .ConflictError)
    else
      ({ s with
          loans := replaceFirst (fun x => x.id == lid) (markReturned cfg today) s.loans,
          books := replaceFirst (fun r => r.book_id == l.book_id) bumpAvail s.books,
          history :=
            ⟨lid, .RETURNED, u⟩ ::
              ((if daysOverdue today l.due_date > 0 then
                  [(⟨lid, .FINE_CALCULATED, u⟩ : HistoryEntry)]
                else []) ++ s.history) }, .ok)

/-- The per-loan effect of a committed renewal: status RENEWED, due date
extended by the fixed loan period from the current due date, renewal count
incremented. -/
def markRenewed (cfg : Config) (x : Loan) : Loan :=
  { x with status := .RENEWED,
           due_date := x.due_date + (cfg.loan_period : Int),
           renewal_count := x.renewal_count + 1 }

/-- Modelled from the spec, §4.3 Renew: `requires status ∈ {ACTIVE, OVERDUE}
and renewal_count < max_renewals; fails with RenewalLimitError otherwise;
fails with NotRenewableError if status is already RETURNED; extends due_date
by the fixed loan period from the current due date, increments
renewal_count, sets status RENEWED, writes a RENEWED entry.` -/
def execRenewLoan (cfg : Config) (s : LMSState) (lid u : Nat) :
    LMSState × Outcome :=
  match s.loans.find? (fun l => l.id == lid) with
  | none => (s, .err .ValidationError)
  | some l =>
    if l.status = .RETURNED then
      (s, .err .NotRenewableError)
    else if l.max_renewals ≤ l.renewal_count then
      (s, .err .RenewalLimitError)
    else if l.status = .ACTIVE ∨ l.status = .OVERDUE then
      ({ s with
          loans := replaceFirst (fun x => x.id == lid) (markRenewed cfg) s.loans,
          history := ⟨lid, .RENEWED, u⟩ :: s.history }, .ok)
    else
      (s, .err .RenewalLimitError)

/-- A loan the overdue sweep transitions: `status ∈ {ACTIVE, RENEWED} and
due_date < today` (spec §4.3). -/
def sweepable (today : Int) (l : Loan) : Bool :=
  (l.status == .ACTIVE || l.status == .RENEWED) && l.due_date < today

/-- Modelled from the spec, §4.3 Overdue sweep: `for every loan with status
∈ {ACTIVE, RENEWED} and due_date < today, transition to OVERDUE and write an
OVERDUE entry exactly once; idempotent under repeated sweep execution` (the
sweepable check makes a second run a no-op).  Actor 0 stands for the
system. -/
def execSweep (s : LMSState) (today : Int) : LMSState × Outcome :=
  ({ s with
      loans := s.loans.map (fun l =>
        if sweepable today l then { l with status := .OVERDUE } else l),
      history :=
        (s.loans.filterMap (fun l =>
          if sweepable today l then some ⟨l.id, .OVERDUE, 0⟩ else none)) ++
          s.history }, .ok)

/-- Modelled from the spec: `book.create_request` — availability is a
`derived counter tied to a Book`, so a newly created book starts with
`available_copies = total_copies` (it has no loans yet). -/
def execCreateBook (s : LMSState) (total : Nat) : LMSState × Outcome :=
  ({ s with
      books := ⟨s.nextBookId, total, total⟩ :: s.books,
      nextBookId := s.nextBookId + 1 }, .ok)

/-- The per-book effect of a committed copy-count update: the new total,
with available copies carried along by the same delta. -/
def retotal (total : Nat) (r : BookAvailability) : BookAvailability :=
  { r with total_copies := total,
           available_copies := r.available_copies + total - r.total_copies }

/-- Modelled from the spec: `book.update_request` — the Availability Ledger
owns the counters, so a change of `total_copies` carries `available_copies`
along by the same delta; an update that would drive `available_copies`
negative (new total below the outstanding-loan count) is rejected as
malformed. -/
def execUpdateBook (s : LMSState) (b total : Nat) : LMSState × Outcome :=
  match lookupBook s.books b with
  | none => (s, .err .ValidationError)
  | some bk =>
    if bk.total_copies ≤ bk.available_copies + total then
      ({ s with
          books := replaceFirst (fun r => r.book_id == b) (retotal total) s.books }, .ok)
    else
      (s, .err .ValidationError)

/-- Modelled from the spec: `book.delete_request` — removes the book's
availability record. -/
def execDeleteBook (s : LMSState) (b : Nat) : LMSState × Outcome :=
  match lookupBook s.books b with
  | none => (s, .err .ValidationError)
  | some _ => ({ s with books := s.books.filter (fun r => !(r.book_id == b)) }, .ok)

/-- Dispatch a command to its handler, without dedup. -/
def exec (cfg : Config) (s : LMSState) : Command → LMSState × Outcome
  | .createUser _ u m => execCreateUser s u m
  | .createLoan _ u b today => execCreateLoan cfg s u b today
  | .returnLoan _ lid u today => execReturnLoan cfg s lid u today
  | .renewLoan _ lid u => execRenewLoan cfg s lid u
  | .createBook _ total => execCreateBook s total
  | .updateBook _ b total => execUpdateBook s b total
  | .deleteBook _ b => execDeleteBook s b
  | .overdueSweep today => execSweep s today

/-- The dedup key of a client command; the overdue sweep is internal and has
none (spec §4.2: sweeps are pseudo-commands, §4.1 dedup applies to broker
commands). -/
def dedupKey? : Command → Option String
  | .createUser dk _ _ => some dk
  | .createLoan dk _ _ _ => some dk
  | .returnLoan dk _ _ _ => some dk
  | .renewLoan dk _ _ => some dk
  | .createBook dk _ => some dk
  | .updateBook dk _ _ => some dk
  | .deleteBook dk _ => some dk
  | .overdueSweep _ => none

/-- Modelled from the spec, §4.1: process one command through ingress dedup
— `if a command with the same dedup key was already committed, it is
acknowledged as a no-op success (idempotent replay)`; otherwise the handler
runs and, on commit, the dedup key is recorded. -/
def step (cfg : Config) (s : LMSState) (c : Command) : LMSState × Outcome :=
  match dedupKey? c with
  | none => exec cfg s c
  | some k =>
    if k ∈ s.committedKeys then
      (s, .okNoop)
    else
      match exec cfg s c with
      | (s', .ok) => ({ s' with committedKeys := k :: s'.committedKeys }, .ok)
      | r => r

/-- The states reachable from the empty state by any sequence of processed
commands. -/
inductive Reachable (cfg : Config) : LMSState → Prop
  | init : Reachable cfg initState
  | step {s : LMSState} {c : Command} :
      Reachable cfg s → Reachable cfg (step cfg s c).1

/-- Number of CREATED history entries for loan `i`. -/
def createdCount (hist : List HistoryEntry) (i : Nat) : Nat :=
  hist.countP (fun h => h.loan_id == i && h.action == HistoryAction.CREATED)

/-- The state invariant maintained by every committed operation: ledger
consistency (`available + outstanding = total`, hence `available ≤ total`),
freshness of allocated ids, and history/loan pairing (exactly one CREATED
entry per loan, every CREATED entry for an existing loan). -/
structure Inv (s : LMSState) : Prop where
  bookPairwise : s.books.Pairwise (fun x y => x.book_id ≠ y.book_id)
  bookLt : ∀ bk ∈ s.books, bk.book_id < s.nextBookId
  availSum : ∀ bk ∈ s.books,
    bk.available_copies + s.loans.countP (outstandingFor bk.book_id) = bk.total_copies
  loanLt : ∀ l ∈ s.loans, l.id < s.nextLoanId
  loanBookLt : ∀ l ∈ s.loans, l.book_id < s.nextBookId
  createdOnce : ∀ l ∈ s.loans, createdCount s.history l.id = 1
  histLt : ∀ h ∈ s.history, h.loan_id < s.nextLoanId
  histCreatedLoan : ∀ h ∈ s.history, h.action = HistoryAction.CREATED →
    ∃ l ∈ s.loans, l.id = h.loan_id

/-! ## Demonstration fixture: the spec's running scenario

A configuration with a 14-day loan period, fine rate 10 (DZD) and 2 maximal
renewals; one user with capacity 5, one book with a single copy, one loan
created on day 100 (due day 114). -/

def cfgDemo : Config := ⟨14, 10, 2⟩

def demoS1 : LMSState := (step cfgDemo initState (.createUser "u" 1 5)).1

def demoS2 : LMSState := (step cfgDemo demoS1 (.createBook "b" 1)).1

def demoS3 : LMSState := (step cfgDemo demoS2 (.createLoan "l1" 1 0 100)).1

/-- `demoS3` after returning the loan 14 days late (day 128). -/
def demoS4 : LMSState := (step cfgDemo demoS3 (.returnLoan "ret1" 0 1 128)).1

/-- `demoS3` after one renewal of the loan (due 128, count 1, RENEWED). -/
def demoR1 : LMSState := (step cfgDemo demoS3 (.renewLoan "r1" 0 1)).1

/-- `demoR1` after the overdue sweep on day 130 (the loan turns OVERDUE). -/
def demoRO1 : LMSState := (step cfgDemo demoR1 (.overdueSweep 130)).1

/-- `demoRO1` after a second renewal (due 142, count 2 = max, RENEWED). -/
def demoR2 : LMSState := (step cfgDemo demoRO1 (.renewLoan "r2" 0 1)).1

/-- `demoR2` after the overdue sweep on day 150: the loan is OVERDUE and at
its renewal limit. -/
def demoRO2 : LMSState := (step cfgDemo demoR2 (.overdueSweep 150)).1

/-! ## List lemmas for `replaceFirst` -/

theorem replaceFirst_of_find?_eq_none {p : α → Bool} (f : α → α) {xs : List α}
    (h : xs.find? p = none) : replaceFirst p f xs = xs := by
  induction xs with
  | nil => rfl
  | cons x xs ih =>
    by_cases hx : p x
    · rw [List.find?_cons_of_pos _ hx] at h; exact absurd h (by simp)
    · rw [List.find?_cons_of_neg _ hx] at h
      simp [replaceFirst, hx, ih h]

theorem find?_decomp {p : α → Bool} {xs : List α} {a : α}
    (h : xs.find? p = some a) :
    ∃ l1 l2, xs = l1 ++ a :: l2 ∧ (∀ y ∈ l1, p y = false) ∧
      ∀ f : α → α, replaceFirst p f xs = l1 ++ f a :: l2 := by
  induction xs with
  | nil => simp [List.find?] at h
  | cons x xs ih =>
    by_cases hx : p x
    · rw [List.find?_cons_of_pos _ hx, Option.some_inj] at h
      subst h
      exact ⟨[], xs, rfl, by simp, fun f => by simp [replaceFirst, hx]⟩
    · rw [List.find?_cons_of_neg _ hx] at h
      obtain ⟨l1, l2, rfl, hl1, hrf⟩ := ih h
      refine ⟨x :: l1, l2, rfl, ?_, fun f => ?_⟩
      · intro y hy
        rcases List.mem_cons.mp hy with rfl | hy2
        · exact Bool.eq_false_iff.mpr hx
        · exact hl1 y hy2
      · simp [replaceFirst, hx, hrf f]

theorem countP_replaceFirst {p : α → Bool} {xs : List α} {a : α}
    (h : xs.find? p = some a) (f : α → α) (q : α → Bool) :
    (replaceFirst p f xs).countP q + (if q a then 1 else 0) =
      xs.countP q + (if q (f a) then 1 else 0) := by
  obtain ⟨l1, l2, rfl, _, hrf⟩ := find?_decomp h
  rw [hrf f]
  simp only [List.countP_append, List.countP_cons]
  by_cases hqa : q a <;> by_cases hqfa : q (f a) <;> simp [hqa, hqfa] <;> omega

theorem mem_replaceFirst {p : α → Bool} {f : α → α} {xs : List α} {y : α}
    (h : y ∈ replaceFirst p f xs) :
    y ∈ xs ∨ ∃ a, xs.find? p = some a ∧ y = f a := by
  induction xs with
  | nil => simp [replaceFirst] at h
  | cons x xs ih =>
    by_cases hx : p x
    · simp only [replaceFirst, if_pos hx, List.mem_cons] at h
      rcases h with rfl | hmem
      · exact Or.inr ⟨x, List.find?_cons_of_pos _ hx, rfl⟩
      · exact Or.inl (List.mem_cons_of_mem _ hmem)
    · simp only [replaceFirst, if_neg hx, List.mem_cons] at h
      rcases h with rfl | hmem
      · exact Or.inl (List.mem_cons_self _ _)
      · rcases ih hmem with h1 | ⟨a, ha, rfl⟩
        · exact Or.inl (List.mem_cons_of_mem _ h1)
        · exact Or.inr ⟨a, by rw [List.find?_cons_of_neg _ hx]; exact ha, rfl⟩

theorem length_replaceFirst (p : α → Bool) (f : α → α) (xs : List α) :
    (replaceFirst p f xs).length = xs.length := by
  induction xs with
  | nil => rfl
  | cons x xs ih =>
    by_cases hx : p x <;> simp [replaceFirst, hx, ih]

/-- Replacing the middle element of a decomposed list preserves `Pairwise`
when the new element inherits the old one's relations. -/
theorem pairwise_middle_congr {R : α → α → Prop} {l1 l2 : List α} {a b : α}
    (h : (l1 ++ a :: l2).Pairwise R)
    (h1 : ∀ y, R a y → R b y) (h2 : ∀ y, R y a → R y b) :
    (l1 ++ b :: l2).Pairwise R := by
  rw [List.pairwise_append] at h ⊢
  obtain ⟨hl1, hcons, hcross⟩ := h
  rw [List.pairwise_cons] at hcons ⊢
  refine ⟨hl1, ⟨fun y hy => h1 y (hcons.1 y hy), hcons.2⟩, ?_⟩
  intro x hx y hy
  rcases List.mem_cons.mp hy with rfl | hy2
  · exact h2 x (hcross x hx a (List.mem_cons_self _ _))
  · exact hcross x hx y (List.mem_cons_of_mem _ hy2)

/-- If the replacement preserves loan ids, the multiset of ids is unchanged. -/
theorem map_loanId_replaceFirst {p : Loan → Bool} {f : Loan → Loan}
    (hf : ∀ x, (f x).id = x.id) (xs : List Loan) :
    (replaceFirst p f xs).map Loan.id = xs.map Loan.id := by
  induction xs with
  | nil => rfl
  | cons x xs ih =>
    by_cases hx : p x <;> simp [replaceFirst, hx, ih, hf]

/-- `find?` over a list whose prefix fails `p` hits the head of the tail
when it matches. -/
theorem find?_append_first {p : α → Bool} {l1 l2 : List α} {b : α}
    (hl1 : ∀ y ∈ l1, p y = false) (hb : p b = true) :
    (l1 ++ b :: l2).find? p = some b := by
  induction l1 with
  | nil => exact List.find?_cons_of_pos _ hb
  | cons y ys ih =>
    rw [List.cons_append,
      List.find?_cons_of_neg _ (by simp [hl1 y (List.mem_cons_self _ _)])]
    exact ih (fun z hz => hl1 z (List.mem_cons_of_mem _ hz))

/-- After replacing the first `p`-match, `find? p` returns its image as long
as the image still matches. -/
theorem find?_replaceFirst_self {p : α → Bool} {xs : List α} {a : α}
    (h : xs.find? p = some a) (f : α → α) (hf : p (f a) = true) :
    (replaceFirst p f xs).find? p = some (f a) := by
  obtain ⟨l1, l2, _, hl1, hrf⟩ := find?_decomp h
  rw [hrf]
  exact find?_append_first hl1 hf

/-- Exchanging a middle element that fails `q` for another that fails `q`
does not change `find? q`. -/
theorem find?_middle_congr {q : α → Bool} {l2 : List α} {a b : α} (l1 : List α)
    (ha : q a = false) (hb : q b = false) :
    (l1 ++ b :: l2).find? q = (l1 ++ a :: l2).find? q := by
  induction l1 with
  | nil =>
    simp only [List.nil_append]
    rw [List.find?_cons_of_neg _ (by simp [hb]), List.find?_cons_of_neg _ (by simp [ha])]
  | cons x xs ih =>
    by_cases hx : q x
    · simp only [List.cons_append]
      rw [List.find?_cons_of_pos _ hx, List.find?_cons_of_pos _ hx]
    · simp only [List.cons_append]
      rw [List.find?_cons_of_neg _ (by simp [hx]), List.find?_cons_of_neg _ (by simp [hx]), ih]

/-- `find?` commutes with a map that preserves the predicate. -/
theorem find?_map_congr {q : α → Bool} {g : α → α} (hq : ∀ x, q (g x) = q x)
    (xs : List α) : (xs.map g).find? q = (xs.find? q).map g := by
  induction xs with
  | nil => rfl
  | cons x xs ih =>
    by_cases hx : q x
    · rw [List.map_cons, List.find?_cons_of_pos _ (by rw [hq]; exact hx),
        List.find?_cons_of_pos _ hx]
      rfl
    · rw [List.map_cons, List.find?_cons_of_neg _ (by simp [hq, hx]),
        List.find?_cons_of_neg _ (by simp [hx]), ih]

/-! ## The reachable-state invariant -/

theorem inv_initState : Inv initState := by
  constructor <;> simp [initState]

/-- A loan that is not RETURNED is outstanding. -/
theorem statusOutstanding_of_ne {st : LoanStatus} (h : st ≠ .RETURNED) :
    statusOutstanding st = true := by
  cases st <;> simp_all [statusOutstanding]

/-- The invariant ignores the dedup-key set and the user table. -/
theorem inv_of_parts {s s' : LMSState}
    (hl : s'.loans = s.loans) (hb : s'.books = s.books) (hh : s'.history = s.history)
    (hnl : s'.nextLoanId = s.nextLoanId) (hnb : s'.nextBookId = s.nextBookId)
    (h : Inv s) : Inv s' := by
  constructor
  · rw [hb]; exact h.bookPairwise
  · rw [hb, hnb]; exact h.bookLt
  · rw [hb, hl]; exact h.availSum
  · rw [hl, hnl]; exact h.loanLt
  · rw [hl, hnb]; exact h.loanBookLt
  · rw [hl, hh]; exact h.createdOnce
  · rw [hh, hnl]; exact h.histLt
  · rw [hh, hl]; exact h.histCreatedLoan

theorem countP_replaceFirst_congr {p : α → Bool} {xs : List α} {a : α}
    (h : xs.find? p = some a) (f : α → α) (q : α → Bool) (hq : q (f a) = q a) :
    (replaceFirst p f xs).countP q = xs.countP q := by
  have hc := countP_replaceFirst h f q
  rw [hq] at hc
  omega

theorem exists_id_of_map_eq {xs ys : List Loan} (hmap : ys.map Loan.id = xs.map Loan.id)
    {i : Nat} (h : ∃ l ∈ xs, l.id = i) : ∃ l ∈ ys, l.id = i := by
  obtain ⟨l, hl, rfl⟩ := h
  have hm : l.id ∈ ys.map Loan.id := by
    rw [hmap]; exact List.mem_map_of_mem _ hl
  obtain ⟨l', hl', he⟩ := List.mem_map.mp hm
  exact ⟨l', hl', he⟩

/-! ## Invariant preservation, per handler -/

theorem execCreateUser_inv {s : LMSState} (h : Inv s) (u m : Nat) :
    Inv (execCreateUser s u m).1 :=
  @inv_of_parts s (execCreateUser s u m).1 rfl rfl rfl rfl rfl h

theorem execCreateBook_inv {s : LMSState} (h : Inv s) (total : Nat) :
    Inv (execCreateBook s total).1 := by
  have hred : (execCreateBook s total).1 =
      { s with books := ⟨s.nextBookId, total, total⟩ :: s.books,
               nextBookId := s.nextBookId + 1 } := rfl
  rw [hred]
  constructor
  · refine List.pairwise_cons.mpr ⟨?_, h.bookPairwise⟩
    intro y hy
    exact (Nat.ne_of_lt (h.bookLt y hy)).symm
  · intro bk hbk
    rcases List.mem_cons.mp hbk with rfl | hmem
    · exact Nat.lt_succ_self _
    · exact Nat.lt_succ_of_lt (h.bookLt _ hmem)
  · intro bk hbk
    rcases List.mem_cons.mp hbk with rfl | hmem
    · have hz : s.loans.countP (outstandingFor s.nextBookId) = 0 := by
        refine List.countP_eq_zero.mpr ?_
        intro l hl
        have hlt := h.loanBookLt l hl
        simp [outstandingFor, Nat.ne_of_lt hlt]
      simp [hz]
    · exact h.availSum _ hmem
  · exact h.loanLt
  · intro l hl
    exact Nat.lt_succ_of_lt (h.loanBookLt l hl)
  · exact h.createdOnce
  · exact h.histLt
  · exact h.histCreatedLoan

theorem execDeleteBook_inv {s : LMSState} (h : Inv s) (b : Nat) :
    Inv (execDeleteBook s b).1 := by
  cases hfind : lookupBook s.books b with
  | none => simpa only [execDeleteBook, hfind] using h
  | some bk =>
    have hred : (execDeleteBook s b).1 =
        { s with books := s.books.filter (fun r => !(r.book_id == b)) } := by
      simp only [execDeleteBook, hfind]
    rw [hred]
    constructor
    · exact h.bookPairwise.sublist (List.filter_sublist _)
    · intro y hy; exact h.bookLt y (List.mem_of_mem_filter hy)
    · intro y hy; exact h.availSum y (List.mem_of_mem_filter hy)
    · exact h.loanLt
    · exact h.loanBookLt
    · exact h.createdOnce
    · exact h.histLt
    · exact h.histCreatedLoan

theorem execUpdateBook_inv {s : LMSState} (h : Inv s) (b total : Nat) :
    Inv (execUpdateBook s b total).1 := by
  cases hfind : lookupBook s.books b with
  | none => simpa only [execUpdateBook, hfind] using h
  | some bk =>
    by_cases hval : bk.total_copies ≤ bk.available_copies + total
    · have hred : (execUpdateBook s b total).1 =
          { s with books := replaceFirst (fun r => r.book_id == b) (retotal total) s.books } := by
        simp only [execUpdateBook, hfind, if_pos hval]
      rw [hred]
      have hfind' : s.books.find? (fun r => r.book_id == b) = some bk := hfind
      obtain ⟨l1, l2, hxs, hl1, hrf⟩ := find?_decomp hfind'
      have hpw := h.bookPairwise
      rw [hxs] at hpw
      constructor
      · rw [hrf]
        exact pairwise_middle_congr hpw (fun y hy => hy) (fun y hy => hy)
      · intro y hy
        rcases mem_replaceFirst hy with hmem | ⟨a, ha, rfl⟩
        · exact h.bookLt y hmem
        · rw [hfind'] at ha
          obtain rfl := Option.some_inj.mp ha
          exact h.bookLt bk (List.mem_of_find?_eq_some hfind')
      · intro y hy
        rcases mem_replaceFirst hy with hmem | ⟨a, ha, rfl⟩
        · exact h.availSum y hmem
        · rw [hfind'] at ha
          obtain rfl := Option.some_inj.mp ha
          have hsum := h.availSum bk (List.mem_of_find?_eq_some hfind')
          simp only [retotal] at *
          omega
      · exact h.loanLt
      · exact h.loanBookLt
      · exact h.createdOnce
      · exact h.histLt
      · exact h.histCreatedLoan
    · simpa only [execUpdateBook, hfind, if_neg hval] using h

theorem execRenewLoan_inv {s : LMSState} (cfg : Config) (h : Inv s) (lid u : Nat) :
    Inv (execRenewLoan cfg s lid u).1 := by
  cases hfind : s.loans.find? (fun l => l.id == lid) with
  | none => simpa only [execRenewLoan, hfind] using h
  | some l =>
    by_cases hret : l.status = LoanStatus.RETURNED
    · simpa only [execRenewLoan, hfind, if_pos hret] using h
    · by_cases hlim : l.max_renewals ≤ l.renewal_count
      · simpa only [execRenewLoan, hfind, if_neg hret, if_pos hlim] using h
      · by_cases hst : l.status = LoanStatus.ACTIVE ∨ l.status = LoanStatus.OVERDUE
        · have hred : (execRenewLoan cfg s lid u).1 =
              { s with
                  loans := replaceFirst (fun x => x.id == lid) (markRenewed cfg) s.loans,
                  history := ⟨lid, .RENEWED, u⟩ :: s.history } := by
            simp only [execRenewLoan, hfind, if_neg hret, if_neg hlim, if_pos hst]
          rw [hred]
          have hmem := List.mem_of_find?_eq_some hfind
          have hid : l.id = lid := by simpa using List.find?_some hfind
          have hcnt : ∀ q : Loan → Bool, q (markRenewed cfg l) = q l →
              (replaceFirst (fun x => x.id == lid) (markRenewed cfg) s.loans).countP q =
                s.loans.countP q :=
            fun q hq => countP_replaceFirst_congr hfind (markRenewed cfg) q hq
          have hmap : (replaceFirst (fun x => x.id == lid) (markRenewed cfg) s.loans).map
              Loan.id = s.loans.map Loan.id :=
            map_loanId_replaceFirst (fun x => (rfl : (markRenewed cfg x).id = x.id)) s.loans
          constructor
          · exact h.bookPairwise
          · exact h.bookLt
          · intro bk hbk
            rw [hcnt (outstandingFor bk.book_id) ?_]
            · exact h.availSum bk hbk
            · have : statusOutstanding l.status = true := statusOutstanding_of_ne hret
              simp [outstandingFor, markRenewed, statusOutstanding, this]
          · intro y hy
            rcases mem_replaceFirst hy with hm | ⟨a, ha, rfl⟩
            · exact h.loanLt y hm
            · rw [hfind] at ha
              obtain rfl := Option.some_inj.mp ha
              exact h.loanLt l hmem
          · intro y hy
            rcases mem_replaceFirst hy with hm | ⟨a, ha, rfl⟩
            · exact h.loanBookLt y hm
            · rw [hfind] at ha
              obtain rfl := Option.some_inj.mp ha
              exact h.loanBookLt l hmem
          · intro y hy
            have hcc : ∀ i : Nat,
                createdCount (⟨lid, .RENEWED, u⟩ :: s.history) i = createdCount s.history i := by
              intro i
              simp [createdCount, List.countP_cons]
            rcases mem_replaceFirst hy with hm | ⟨a, ha, rfl⟩
            · rw [hcc]; exact h.createdOnce y hm
            · rw [hfind] at ha
              obtain rfl := Option.some_inj.mp ha
              rw [hcc]
              exact h.createdOnce l hmem
          · intro e he
            rcases List.mem_cons.mp he with rfl | hm
            · exact hid ▸ h.loanLt l hmem
            · exact h.histLt e hm
          · intro e he hact
            rcases List.mem_cons.mp he with rfl | hm
            · simp at hact
            · exact exists_id_of_map_eq hmap (h.histCreatedLoan e hm hact)
        · simpa only [execRenewLoan, hfind, if_neg hret, if_neg hlim, if_neg hst] using h

theorem execReturnLoan_inv {s : LMSState} (cfg : Config) (h : Inv s) (lid u : Nat)
    (today : Int) : Inv (execReturnLoan cfg s lid u today).1 := by
  cases hfind : s.loans.find? (fun l => l.id == lid) with
  | none => simpa only [execReturnLoan, hfind] using h
  | some l =>
    by_cases hret : l.status = LoanStatus.RETURNED
    · simpa only [execReturnLoan, hfind, if_pos hret] using h
    · have hred : (execReturnLoan cfg s lid u today).1 =
          { s with
              loans := replaceFirst (fun x => x.id == lid) (markReturned cfg today) s.loans,
              books := replaceFirst (fun r => r.book_id == l.book_id) bumpAvail s.books,
              history :=
                ⟨lid, .RETURNED, u⟩ ::
                  ((if daysOverdue today l.due_date > 0 then
                      [(⟨lid, .FINE_CALCULATED, u⟩ : HistoryEntry)]
                    else []) ++ s.history) } := by
        simp only [execReturnLoan, hfind, if_neg hret]
      rw [hred]
      have hmem := List.mem_of_find?_eq_some hfind
      have hid : l.id = lid := by simpa using List.find?_some hfind
      have hout : statusOutstanding l.status = true := statusOutstanding_of_ne hret
      have hcntB : ∀ c, c ≠ l.book_id →
          (replaceFirst (fun x => x.id == lid) (markReturned cfg today) s.loans).countP
              (outstandingFor c) = s.loans.countP (outstandingFor c) := by
        intro c hc
        refine countP_replaceFirst_congr hfind _ _ ?_
        have : (l.book_id == c) = false := by simpa using fun he => hc he.symm
        simp [outstandingFor, markReturned, this]
      have hcntEq :
          (replaceFirst (fun x => x.id == lid) (markReturned cfg today) s.loans).countP
              (outstandingFor l.book_id) + 1 =
            s.loans.countP (outstandingFor l.book_id) := by
        have hc := countP_replaceFirst hfind (markReturned cfg today) (outstandingFor l.book_id)
        have h1 : outstandingFor l.book_id l = true := by simp [outstandingFor, hout]
        have h2 : outstandingFor l.book_id (markReturned cfg today l) = false := by
          simp [outstandingFor, markReturned, statusOutstanding]
        rw [h1, h2] at hc
        simpa using hc
      have hmapL : (replaceFirst (fun x => x.id == lid) (markReturned cfg today) s.loans).map
          Loan.id = s.loans.map Loan.id :=
        map_loanId_replaceFirst (fun x => (rfl : (markReturned cfg today x).id = x.id)) s.loans
      have hcc : ∀ i : Nat,
          createdCount (⟨lid, .RETURNED, u⟩ ::
            ((if daysOverdue today l.due_date > 0 then
                [(⟨lid, .FINE_CALCULATED, u⟩ : HistoryEntry)]
              else []) ++ s.history)) i = createdCount s.history i := by
        intro i
        by_cases hd : daysOverdue today l.due_date > 0 <;>
          simp [createdCount, List.countP_cons, List.countP_append, hd]
      constructor
      · cases hfindB : s.books.find? (fun r => r.book_id == l.book_id) with
        | none =>
          rw [replaceFirst_of_find?_eq_none bumpAvail hfindB]
          exact h.bookPairwise
        | some bk =>
          obtain ⟨L1, L2, hxs, hL1, hrf⟩ := find?_decomp hfindB
          rw [hrf]
          have hpw := h.bookPairwise
          rw [hxs] at hpw
          exact pairwise_middle_congr hpw (fun y hy => hy) (fun y hy => hy)
      · intro y hy
        rcases mem_replaceFirst hy with hm | ⟨a, ha, rfl⟩
        · exact h.bookLt y hm
        · exact h.bookLt a (List.mem_of_find?_eq_some ha)
      · cases hfindB : s.books.find? (fun r => r.book_id == l.book_id) with
        | none =>
          rw [replaceFirst_of_find?_eq_none bumpAvail hfindB]
          intro bk hbk
          have hne : bk.book_id ≠ l.book_id := by
            have := List.find?_eq_none.mp hfindB bk hbk
            simpa using this
          rw [hcntB _ hne]
          exact h.availSum bk hbk
        | some bk =>
          obtain ⟨L1, L2, hxs, hL1, hrf⟩ := find?_decomp hfindB
          have hbkid : bk.book_id = l.book_id := by simpa using List.find?_some hfindB
          have hpw := h.bookPairwise
          rw [hxs] at hpw
          rw [hrf]
          intro y hy
          rcases List.mem_append.mp hy with hy1 | hy2
          · have hne : y.book_id ≠ l.book_id := by
              have := hL1 y hy1
              simpa using this
            rw [hcntB _ hne]
            refine h.availSum y ?_
            rw [hxs]; exact List.mem_append_left _ hy1
          · rcases List.mem_cons.mp hy2 with rfl | hy3
            · have hsum := h.availSum bk (by rw [hxs]; exact List.mem_append_right _ (List.mem_cons_self _ _))
              have : (bumpAvail bk).book_id = bk.book_id := rfl
              rw [this, hbkid] at *
              simp only [bumpAvail]
              rw [hbkid]
              omega
            · have hne : y.book_id ≠ l.book_id := by
                have hmid := (List.pairwise_append.mp hpw).2.1
                have := (List.pairwise_cons.mp hmid).1 y hy3
                rw [hbkid] at this
                exact fun he => this he.symm
              rw [hcntB _ hne]
              refine h.availSum y ?_
              rw [hxs]; exact List.mem_append_right _ (List.mem_cons_of_mem _ hy3)
      · intro y hy
        rcases mem_replaceFirst hy with hm | ⟨a, ha, rfl⟩
        · exact h.loanLt y hm
        · rw [hfind] at ha
          obtain rfl := Option.some_inj.mp ha
          exact h.loanLt l hmem
      · intro y hy
        rcases mem_replaceFirst hy with hm | ⟨a, ha, rfl⟩
        · exact h.loanBookLt y hm
        · rw [hfind] at ha
          obtain rfl := Option.some_inj.mp ha
          exact h.loanBookLt l hmem
      · intro y hy
        rw [hcc]
        rcases mem_replaceFirst hy with hm | ⟨a, ha, rfl⟩
        · exact h.createdOnce y hm
        · rw [hfind] at ha
          obtain rfl := Option.some_inj.mp ha
          exact h.createdOnce l hmem
      · intro e he
        rcases List.mem_cons.mp he with rfl | hm
        · exact hid ▸ h.loanLt l hmem
        · rcases List.mem_append.mp hm with hfine | hold
          · by_cases hd : daysOverdue today l.due_date > 0
            · rw [if_pos hd] at hfine
              rcases List.mem_singleton.mp hfine with rfl
              exact hid ▸ h.loanLt l hmem
            · rw [if_neg hd] at hfine
              simp at hfine
          · exact h.histLt e hold
      · intro e he hact
        rcases List.mem_cons.mp he with rfl | hm
        · simp at hact
        · rcases List.mem_append.mp hm with hfine | hold
          · by_cases hd : daysOverdue today l.due_date > 0
            · rw [if_pos hd] at hfine
              rcases List.mem_singleton.mp hfine with rfl
              simp at hact
            · rw [if_neg hd] at hfine
              simp at hfine
          · exact exists_id_of_map_eq hmapL (h.histCreatedLoan e hold hact)

theorem execCreateLoan_inv {s : LMSState} (cfg : Config) (h : Inv s) (u b : Nat)
    (today : Int) : Inv (execCreateLoan cfg s u b today).1 := by
  cases hfu : lookupUser s.users u with
  | none => simpa only [execCreateLoan, hfu] using h
  | some ur =>
    by_cases hcap : ur.max_loans ≤ userActiveCount s.loans u
    · simpa only [execCreateLoan, hfu, if_pos hcap] using h
    · cases hfb : lookupBook s.books b with
      | none => simpa only [execCreateLoan, hfu, if_neg hcap, hfb] using h
      | some bk =>
        by_cases hav : bk.available_copies = 0
        · simpa only [execCreateLoan, hfu, if_neg hcap, hfb, if_pos hav] using h
        · have hred : (execCreateLoan cfg s u b today).1 =
              { s with
                  loans :=
                    { id := s.nextLoanId, user_id := u, book_id := b,
                      loan_date := today,
                      due_date := today + (cfg.loan_period : Int),
                      return_date := none, status := .ACTIVE,
                      fine_amount := 0, fine_paid := false,
                      renewal_count := 0, max_renewals := cfg.max_renewals } :: s.loans,
                  books := replaceFirst (fun r => r.book_id == b) dropAvail s.books,
                  history := ⟨s.nextLoanId, .CREATED, u⟩ :: s.history,
                  nextLoanId := s.nextLoanId + 1 } := by
            simp only [execCreateLoan, hfu, if_neg hcap, hfb, if_pos hav, if_neg hav]
          rw [hred]
          have hfb' : s.books.find? (fun r => r.book_id == b) = some bk := hfb
          have hbkmem := List.mem_of_find?_eq_some hfb'
          have hbkid : bk.book_id = b := by simpa using List.find?_some hfb'
          obtain ⟨L1, L2, hxs, hL1, hrf⟩ := find?_decomp hfb'
          have hpw := h.bookPairwise
          rw [hxs] at hpw
          have hcons : ∀ c : Nat,
              ((⟨s.nextLoanId, u, b, today, today + (cfg.loan_period : Int), none,
                  .ACTIVE, 0, false, 0, cfg.max_renewals⟩ : Loan) :: s.loans).countP
                (outstandingFor c) =
              s.loans.countP (outstandingFor c) + (if b = c then 1 else 0) := by
            intro c
            rw [List.countP_cons]
            by_cases hbc : b = c <;>
              simp [outstandingFor, statusOutstanding, hbc]
          constructor
          · rw [hrf]
            exact pairwise_middle_congr hpw (fun y hy => hy) (fun y hy => hy)
          · intro y hy
            rcases mem_replaceFirst hy with hm | ⟨a, ha, rfl⟩
            · exact h.bookLt y hm
            · exact h.bookLt a (List.mem_of_find?_eq_some ha)
          · rw [hrf]
            intro y hy
            rcases List.mem_append.mp hy with hy1 | hy2
            · have hne : y.book_id ≠ b := by
                have := hL1 y hy1
                simpa using this
              rw [hcons, if_neg (fun he => hne he.symm)]
              have hym : y ∈ s.books := by
                rw [hxs]; exact List.mem_append_left _ hy1
              simpa using h.availSum y hym
            · rcases List.mem_cons.mp hy2 with rfl | hy3
              · have hsum := h.availSum bk hbkmem
                rw [hbkid] at hsum
                have hdid : (dropAvail bk).book_id = bk.book_id := rfl
                rw [hdid, hbkid, hcons, if_pos rfl]
                simp only [dropAvail]
                omega
              · have hne : y.book_id ≠ b := by
                  have hmid := (List.pairwise_append.mp hpw).2.1
                  have := (List.pairwise_cons.mp hmid).1 y hy3
                  rw [hbkid] at this
                  exact fun he => this he.symm
                rw [hcons, if_neg (fun he => hne he.symm)]
                have hym : y ∈ s.books := by
                  rw [hxs]; exact List.mem_append_right _ (List.mem_cons_of_mem _ hy3)
                simpa using h.availSum y hym
          · intro y hy
            rcases List.mem_cons.mp hy with rfl | hm
            · exact Nat.lt_succ_self _
            · exact Nat.lt_succ_of_lt (h.loanLt y hm)
          · intro y hy
            rcases List.mem_cons.mp hy with rfl | hm
            · exact hbkid ▸ h.bookLt bk hbkmem
            · exact h.loanBookLt y hm
          · intro y hy
            have hz : createdCount s.history s.nextLoanId = 0 := by
              refine List.countP_eq_zero.mpr ?_
              intro e he
              have := h.histLt e he
              simp [Nat.ne_of_lt this]
            rcases List.mem_cons.mp hy with rfl | hm
            · simp [createdCount, List.countP_cons] at hz ⊢
              exact hz
            · have hlt := h.loanLt y hm
              have := h.createdOnce y hm
              simp only [createdCount, List.countP_cons] at this ⊢
              have hne : (s.nextLoanId == y.id) = false := by
                simp [Nat.ne_of_gt hlt]
              simp [hne, this]
          · intro e he
            rcases List.mem_cons.mp he with rfl | hm
            · exact Nat.lt_succ_self _
            · exact Nat.lt_succ_of_lt (h.histLt e hm)
          · intro e he hact
            rcases List.mem_cons.mp he with rfl | hm
            · exact ⟨_, List.mem_cons_self _ _, rfl⟩
            · obtain ⟨w, hw, hwe⟩ := h.histCreatedLoan e hm hact
              exact ⟨w, List.mem_cons_of_mem _ hw, hwe⟩

theorem execSweep_inv {s : LMSState} (h : Inv s) (today : Int) :
    Inv (execSweep s today).1 := by
  have hred : (execSweep s today).1 =
      { s with
          loans := s.loans.map (fun l =>
            if sweepable today l then { l with status := .OVERDUE } else l),
          history :=
            (s.loans.filterMap (fun l =>
              if sweepable today l then some ⟨l.id, .OVERDUE, 0⟩ else none)) ++
              s.history } := rfl
  rw [hred]
  have hg : ∀ x : Loan,
      ((if sweepable today x then { x with status := .OVERDUE } else x) : Loan).id = x.id := by
    intro x; by_cases hsw : sweepable today x <;> simp [hsw]
  have hgb : ∀ x : Loan,
      ((if sweepable today x then { x with status := .OVERDUE } else x) : Loan).book_id =
        x.book_id := by
    intro x; by_cases hsw : sweepable today x <;> simp [hsw]
  have hcnt : ∀ c : Nat,
      (s.loans.map (fun l =>
        if sweepable today l then { l with status := .OVERDUE } else l)).countP
          (outstandingFor c) = s.loans.countP (outstandingFor c) := by
    intro c
    rw [List.countP_map]
    refine List.countP_congr ?_
    intro x _
    by_cases hsw : sweepable today x
    · have hst : x.status = .ACTIVE ∨ x.status = .RENEWED := by
        have := hsw
        simp only [sweepable, Bool.and_eq_true, Bool.or_eq_true, beq_iff_eq] at this
        exact this.1
      rcases hst with hst | hst <;>
        simp [Function.comp, hsw, outstandingFor, statusOutstanding, hst]
    · simp [Function.comp, hsw]
  have hnewE : ∀ e ∈ s.loans.filterMap (fun l =>
      if sweepable today l then some (⟨l.id, .OVERDUE, 0⟩ : HistoryEntry) else none),
      e.action = HistoryAction.OVERDUE ∧ ∃ a ∈ s.loans, a.id = e.loan_id := by
    intro e he
    obtain ⟨a, ha, hae⟩ := List.mem_filterMap.mp he
    by_cases hsw : sweepable today a
    · rw [if_pos hsw] at hae
      obtain rfl := Option.some_inj.mp hae
      exact ⟨rfl, a, ha, rfl⟩
    · rw [if_neg hsw] at hae
      simp at hae
  have hmapS : (s.loans.map (fun l =>
      if sweepable today l then { l with status := .OVERDUE } else l)).map Loan.id =
      s.loans.map Loan.id := by
    rw [List.map_map]
    exact List.map_congr_left (fun x _ => hg x)
  have hcc : ∀ i : Nat,
      createdCount ((s.loans.filterMap (fun l =>
        if sweepable today l then some ⟨l.id, .OVERDUE, 0⟩ else none)) ++ s.history) i =
      createdCount s.history i := by
    intro i
    simp only [createdCount, List.countP_append]
    have hz : (s.loans.filterMap (fun l =>
        if sweepable today l then some (⟨l.id, .OVERDUE, 0⟩ : HistoryEntry) else none)).countP
        (fun e => e.loan_id == i && e.action == HistoryAction.CREATED) = 0 := by
      refine List.countP_eq_zero.mpr ?_
      intro e he
      have := (hnewE e he).1
      simp [this]
    omega
  constructor
  · exact h.bookPairwise
  · exact h.bookLt
  · intro bk hbk
    rw [hcnt]
    exact h.availSum bk hbk
  · intro y hy
    obtain ⟨x, hx, rfl⟩ := List.mem_map.mp hy
    rw [hg x]
    exact h.loanLt x hx
  · intro y hy
    obtain ⟨x, hx, rfl⟩ := List.mem_map.mp hy
    rw [hgb x]
    exact h.loanBookLt x hx
  · intro y hy
    obtain ⟨x, hx, rfl⟩ := List.mem_map.mp hy
    rw [hcc, hg x]
    exact h.createdOnce x hx
  · intro e he
    rcases List.mem_append.mp he with hnew | hold
    · obtain ⟨-, a, ha, hae⟩ := hnewE e hnew
      exact hae ▸ h.loanLt a ha
    · exact h.histLt e hold
  · intro e he hact
    rcases List.mem_append.mp he with hnew | hold
    · have := (hnewE e hnew).1
      rw [this] at hact
      simp at hact
    · exact exists_id_of_map_eq hmapS (h.histCreatedLoan e hold hact)

theorem exec_inv {s : LMSState} (cfg : Config) (h : Inv s) (c : Command) :
    Inv (exec cfg s c).1 := by
  cases c with
  | createUser _ u m => exact execCreateUser_inv h u m
  | createLoan _ u b t => exact execCreateLoan_inv cfg h u b t
  | returnLoan _ lid u t => exact execReturnLoan_inv cfg h lid u t
  | renewLoan _ lid u => exact execRenewLoan_inv cfg h lid u
  | createBook _ total => exact execCreateBook_inv h total
  | updateBook _ b total => exact execUpdateBook_inv h b total
  | deleteBook _ b => exact execDeleteBook_inv h b
  | overdueSweep t => exact execSweep_inv h t

theorem step_inv {s : LMSState} (cfg : Config) (h : Inv s) (c : Command) :
    Inv (step cfg s c).1 := by
  cases hdk : dedupKey? c with
  | none =>
    have hs : step cfg s c = exec cfg s c := by simp [step, hdk]
    rw [hs]
    exact exec_inv cfg h c
  | some k =>
    by_cases hmem : k ∈ s.committedKeys
    · have hs : step cfg s c = (s, .okNoop) := by simp [step, hdk, hmem]
      rw [hs]
      exact h
    · rcases hexec : exec cfg s c with ⟨s', o⟩
      have hs' : Inv s' := by
        have hi := exec_inv cfg h c
        rw [hexec] at hi
        exact hi
      cases o with
      | ok =>
        have hs : step cfg s c =
            ({ s' with committedKeys := k :: s'.committedKeys }, .ok) := by
          simp [step, hdk, hmem, hexec]
        rw [hs]
        exact @inv_of_parts s' _ rfl rfl rfl rfl rfl hs'
      | okNoop =>
        have hs : step cfg s c = (s', .okNoop) := by simp [step, hdk, hmem, hexec]
        rw [hs]
        exact hs'
      | err e =>
        have hs : step cfg s c = (s', .err e) := by simp [step, hdk, hmem, hexec]
        rw [hs]
        exact hs'

/-- Every reachable state satisfies the invariant. -/
theorem reachable_inv {cfg : Config} {s : LMSState} (h : Reachable cfg s) : Inv s := by
  induction h with
  | init => exact inv_initState
  | step _ ih => exact step_inv cfg ih _

theorem demoS1_reachable : Reachable cfgDemo demoS1 :=
  @Reachable.step cfgDemo initState (.createUser "u" 1 5) Reachable.init

theorem demoS2_reachable : Reachable cfgDemo demoS2 :=
  @Reachable.step cfgDemo demoS1 (.createBook "b" 1) demoS1_reachable

theorem demoS3_reachable : Reachable cfgDemo demoS3 :=
  @Reachable.step cfgDemo demoS2 (.createLoan "l1" 1 0 100) demoS2_reachable

theorem demoS4_reachable : Reachable cfgDemo demoS4 :=
  @Reachable.step cfgDemo demoS3 (.returnLoan "ret1" 0 1 128) demoS3_reachable

theorem demoRO2_reachable : Reachable cfgDemo demoRO2 :=
  @Reachable.step cfgDemo demoR2 (.overdueSweep 150)
    (@Reachable.step cfgDemo demoRO1 (.renewLoan "r2" 0 1)
      (@Reachable.step cfgDemo demoR1 (.overdueSweep 130)
        (@Reachable.step cfgDemo demoS3 (.renewLoan "r1" 0 1) demoS3_reachable)))

/-- Characterization of a committed `loan.create_request`: it pushes exactly
one new ACTIVE loan and exactly one CREATED history entry, and does not
touch the dedup-key store. -/
theorem execCreateLoan_ok {cfg : Config} {s : LMSState} {u b : Nat} {today : Int}
    (h : (execCreateLoan cfg s u b today).2 = .ok) :
    (execCreateLoan cfg s u b today).1.loans =
      { id := s.nextLoanId, user_id := u, book_id := b, loan_date := today,
        due_date := today + (cfg.loan_period : Int), return_date := none,
        status := .ACTIVE, fine_amount := 0, fine_paid := false,
        renewal_count := 0, max_renewals := cfg.max_renewals } :: s.loans ∧
    (execCreateLoan cfg s u b today).1.history =
      ⟨s.nextLoanId, .CREATED, u⟩ :: s.history ∧
    (execCreateLoan cfg s u b today).1.committedKeys = s.committedKeys := by
  cases hfu : lookupUser s.users u with
  | none => simp [execCreateLoan, hfu] at h
  | some ur =>
    by_cases hcap : ur.max_loans ≤ userActiveCount s.loans u
    · simp [execCreateLoan, hfu, hcap] at h
    · cases hfb : lookupBook s.books b with
      | none => simp [execCreateLoan, hfu, hcap, hfb] at h
      | some bk =>
        by_cases hav : bk.available_copies = 0
        · simp [execCreateLoan, hfu, hcap, hfb, hav] at h
        · refine ⟨?_, ?_, ?_⟩ <;> simp [execCreateLoan, hfu, hcap, hfb, hav]

/-! ## Errors leave the state unchanged -/

theorem execCreateLoan_err {cfg : Config} {s : LMSState} {u b : Nat} {today : Int}
    {e : ErrKind} (h : (execCreateLoan cfg s u b today).2 = .err e) :
    (execCreateLoan cfg s u b today).1 = s := by
  cases hfu : lookupUser s.users u with
  | none => simp [execCreateLoan, hfu]
  | some ur =>
    by_cases hcap : ur.max_loans ≤ userActiveCount s.loans u
    · simp [execCreateLoan, hfu, hcap]
    · cases hfb : lookupBook s.books b with
      | none => simp [execCreateLoan, hfu, hcap, hfb]
      | some bk =>
        by_cases hav : bk.available_copies = 0
        · simp [execCreateLoan, hfu, hcap, hfb, hav]
        · simp [execCreateLoan, hfu, hcap, hfb, hav] at h

theorem execReturnLoan_err {cfg : Config} {s : LMSState} {lid u : Nat} {today : Int}
    {e : ErrKind} (h : (execReturnLoan cfg s lid u today).2 = .err e) :
    (execReturnLoan cfg s lid u today).1 = s := by
  cases hfind : s.loans.find? (fun l => l.id == lid) with
  | none => simp [execReturnLoan, hfind]
  | some l =>
    by_cases hret : l.status = LoanStatus.RETURNED
    · simp [execReturnLoan, hfind, hret]
    · simp [execReturnLoan, hfind, hret] at h

theorem execRenewLoan_err {cfg : Config} {s : LMSState} {lid u : Nat}
    {e : ErrKind} (h : (execRenewLoan cfg s lid u).2 = .err e) :
    (execRenewLoan cfg s lid u).1 = s := by
  cases hfind : s.loans.find? (fun l => l.id == lid) with
  | none => simp [execRenewLoan, hfind]
  | some l =>
    by_cases hret : l.status = LoanStatus.RETURNED
    · simp [execRenewLoan, hfind, hret]
    · by_cases hlim : l.max_renewals ≤ l.renewal_count
      · simp [execRenewLoan, hfind, hret, hlim]
      · by_cases hst : l.status = LoanStatus.ACTIVE ∨ l.status = LoanStatus.OVERDUE
        · simp [execRenewLoan, hfind, hret, hlim, hst] at h
        · simp [execRenewLoan, hfind, hret, hlim, hst]

theorem execUpdateBook_err {s : LMSState} {b total : Nat}
    {e : ErrKind} (h : (execUpdateBook s b total).2 = .err e) :
    (execUpdateBook s b total).1 = s := by
  cases hfind : lookupBook s.books b with
  | none => simp [execUpdateBook, hfind]
  | some bk =>
    by_cases hval : bk.total_copies ≤ bk.available_copies + total
    · simp [execUpdateBook, hfind, hval] at h
    · simp [execUpdateBook, hfind, hval]

theorem execDeleteBook_err {s : LMSState} {b : Nat}
    {e : ErrKind} (h : (execDeleteBook s b).2 = .err e) :
    (execDeleteBook s b).1 = s := by
  cases hfind : lookupBook s.books b with
  | none => simp [execDeleteBook, hfind]
  | some bk =>
    simp [execDeleteBook, hfind] at h

theorem exec_err {cfg : Config} {s : LMSState} {c : Command}
    {e : ErrKind} (h : (exec cfg s c).2 = .err e) : (exec cfg s c).1 = s := by
  cases c with
  | createUser _ u m => simp [exec, execCreateUser] at h
  | createLoan _ u b t => exact execCreateLoan_err h
  | returnLoan _ lid u t => exact execReturnLoan_err h
  | renewLoan _ lid u => exact execRenewLoan_err h
  | createBook _ total => simp [exec, execCreateBook] at h
  | updateBook _ b total => exact execUpdateBook_err h
  | deleteBook _ b => exact execDeleteBook_err h
  | overdueSweep t => simp [exec, execSweep] at h

/-- A rejected command leaves the whole state — loans, availability ledger
and history alike — exactly as it was. -/
theorem step_err {cfg : Config} {s : LMSState} {c : Command}
    {e : ErrKind} (h : (step cfg s c).2 = .err e) : (step cfg s c).1 = s := by
  cases hdk : dedupKey? c with
  | none =>
    have hs : step cfg s c = exec cfg s c := by simp [step, hdk]
    rw [hs] at h ⊢
    exact exec_err h
  | some k =>
    by_cases hmem : k ∈ s.committedKeys
    · have hs : step cfg s c = (s, .okNoop) := by simp [step, hdk, hmem]
      rw [hs] at h
      simp at h
    · rcases hexec : exec cfg s c with ⟨s', o⟩
      cases o with
      | ok =>
        have hs : step cfg s c =
            ({ s' with committedKeys := k :: s'.committedKeys }, .ok) := by
          simp [step, hdk, hmem, hexec]
        rw [hs] at h
        simp at h
      | okNoop =>
        have hs : step cfg s c = (s', .okNoop) := by simp [step, hdk, hmem, hexec]
        rw [hs] at h
        simp at h
      | err e' =>
        have hs : step cfg s c = (s', .err e') := by simp [step, hdk, hmem, hexec]
        rw [hs]
        have h1 : (exec cfg s c).2 = .err e' := by rw [hexec]
        have h2 := exec_err h1
        rw [hexec] at h2
        exact h2

/-! ## Claim theorems -/

/-- Claim C5: for every loan exposed by the read API, `can_renew` is true
exactly when `status ≠ RETURNED ∧ renewal_count < max_renewals`; in
particular it is true for a RENEWED loan with renewals remaining even though
the renew transition itself (which requires status ∈ {ACTIVE, OVERDUE})
rejects such a loan. -/
theorem can_renew_spec :
    (∀ l : Loan, can_renew l = true ↔
      (l.status ≠ LoanStatus.RETURNED ∧ l.renewal_count < l.max_renewals)) ∧
    (∃ l : Loan, l.status = LoanStatus.RENEWED ∧ can_renew l = true ∧
      ∀ u : Nat,
        (execRenewLoan cfgDemo { initState with loans := [l] } l.id u).2 =
          .err .RenewalLimitError) := by
  constructor
  · intro l
    simp [can_renew, Bool.and_eq_true, bne_iff_ne, decide_eq_true_iff]
  · refine ⟨⟨0, 1, 0, 100, 128, none, .RENEWED, 0, false, 1, 2⟩, rfl, rfl, ?_⟩
    intro u
    rfl

/-- Claim C6: the fine at return time is `days_overdue × daily_rate` with
`days_overdue = max(0, today − due_date)`; it is 0 when nothing is overdue;
it is monotone in `days_overdue`; and the spec scenario — a loan due 14 days
ago with daily rate 10 returned today — yields `fine_amount = 140`, status
RETURNED and `available_copies` incremented by 1. -/
theorem fine_calculator_spec :
    (∀ cfg : Config, ∀ today due : Int,
      fineFor cfg today due = daysOverdue today due * cfg.daily_rate) ∧
    (∀ cfg : Config, ∀ today due : Int,
      daysOverdue today due = 0 → fineFor cfg today due = 0) ∧
    (∀ cfg : Config, ∀ t1 t2 due : Int,
      daysOverdue t1 due ≤ daysOverdue t2 due →
      fineFor cfg t1 due ≤ fineFor cfg t2 due) ∧
    ((step cfgDemo demoS3 (.returnLoan "ret1" 0 1 128)).2 = .ok ∧
      (∃ l, demoS4.loans = [l] ∧ l.fine_amount = 140 ∧ l.status = .RETURNED) ∧
      lookupBook demoS3.books 0 = some ⟨0, 1, 0⟩ ∧
      lookupBook demoS4.books 0 = some ⟨0, 1, 1⟩) := by
  refine ⟨fun cfg today due => rfl, fun cfg today due h => ?_, fun cfg t1 t2 due h => ?_, ?_⟩
  · simp [fineFor, h]
  · exact Nat.mul_le_mul_right _ h
  · exact ⟨by decide,
      ⟨⟨0, 1, 0, 100, 114, some 128, .RETURNED, 140, false, 0, 2⟩,
        by decide, by decide, by decide⟩,
      by decide, by decide⟩

/-- Witness for C6: the no-overdue case really fires (a return exactly on
the due day carries no fine) and the monotonicity hypothesis is satisfiable
(8 days late fines at most what 14 days late does). -/
theorem fine_calculator_spec_witness :
    fineFor cfgDemo 114 114 = 0 ∧ fineFor cfgDemo 122 114 ≤ fineFor cfgDemo 128 114 :=
  ⟨fine_calculator_spec.2.1 cfgDemo 114 114 (by decide),
   fine_calculator_spec.2.2.1 cfgDemo 122 128 114 (by decide)⟩

/-- Claim C10: every frontend write operation publishes exactly one message
to the `library_events` topic exchange and resolves immediately to a fixed
`queued` object carrying only a `message` key, so reads of `response.due_date`
or `result.fine` on these results are always `undefined`. -/
theorem frontend_fire_and_forget :
    (∀ u b : Nat, ∀ n : Option String,
      (Frontend.createLoan u b n).1 =
        [⟨"/exchange/library_events/loan.create_request", .createLoanBody u b n⟩] ∧
      (Frontend.createLoan u b n).2 = [("message", "Loan creation queued")] ∧
      Frontend.getField (Frontend.createLoan u b n).2 "due_date" = none ∧
      Frontend.getField (Frontend.createLoan u b n).2 "fine" = none) ∧
    (∀ i u : Nat,
      (Frontend.returnLoan i u).1 =
        [⟨"/exchange/library_events/loan.return_request", .loanIdUserId i u⟩] ∧
      (Frontend.returnLoan i u).2 = [("message", "Return queued")] ∧
      Frontend.getField (Frontend.returnLoan i u).2 "fine" = none ∧
      Frontend.getField (Frontend.returnLoan i u).2 "due_date" = none) ∧
    (∀ i u : Nat,
      (Frontend.renewLoan i u).1 =
        [⟨"/exchange/library_events/loan.renew_request", .loanIdUserId i u⟩] ∧
      (Frontend.renewLoan i u).2 = [("message", "Renewal queued")] ∧
      Frontend.getField (Frontend.renewLoan i u).2 "new_due_date" = none) ∧
    (∀ isbn title author : String, ∀ t a : Nat,
      (Frontend.createBook isbn title author t a).1 =
        [⟨"/exchange/library_events/book.create_request",
          .bookFields isbn title author t a⟩] ∧
      (Frontend.createBook isbn title author t a).2 = [("message", "Creation queued")]) ∧
    (∀ i : Nat, ∀ isbn title author : String, ∀ t a : Nat,
      (Frontend.updateBook i isbn title author t a).1 =
        [⟨"/exchange/library_events/book.update_request",
          .bookIdWithData i isbn title author t a⟩] ∧
      (Frontend.updateBook i isbn title author t a).2 = [("message", "Update queued")]) ∧
    (∀ i : Nat,
      (Frontend.deleteBook i).1 =
        [⟨"/exchange/library_events/book.delete_request", .bookIdOnly i⟩] ∧
      (Frontend.deleteBook i).2 = [("message", "Deletion queued")]) := by
  exact ⟨fun u b n => ⟨rfl, rfl, rfl, rfl⟩,
    fun i u => ⟨rfl, rfl, rfl, rfl⟩,
    fun i u => ⟨rfl, rfl, rfl⟩,
    fun isbn title author t a => ⟨rfl, rfl⟩,
    fun i isbn title author t a => ⟨rfl, rfl⟩,
    fun i => ⟨rfl, rfl⟩⟩

/-- Claim C2: in every state reachable by committed operations (loan
create/return/renew, overdue sweep, book create/update/delete, user create),
every book satisfies `0 ≤ available_copies ≤ total_copies` and
`available_copies + #(ACTIVE/RENEWED/OVERDUE loans of the book) =
total_copies`. -/
theorem availability_invariant (cfg : Config) (s : LMSState) (h : Reachable cfg s) :
    ∀ bk ∈ s.books,
      bk.available_copies ≤ bk.total_copies ∧
      bk.available_copies + s.loans.countP (outstandingFor bk.book_id) =
        bk.total_copies := by
  intro bk hbk
  have hsum := (reachable_inv h).availSum bk hbk
  exact ⟨by omega, hsum⟩

/-- Witness for C2 at a concrete reachable state: the demo book after the
demo loan was created has one total copy, none available, and exactly one
outstanding loan. -/
theorem availability_invariant_witness :
    (⟨0, 1, 0⟩ : BookAvailability) ∈ demoS3.books ∧
      ((0 : Nat) ≤ 1 ∧ 0 + demoS3.loans.countP (outstandingFor 0) = 1) :=
  ⟨by decide,
    availability_invariant cfgDemo demoS3 demoS3_reachable ⟨0, 1, 0⟩ (by decide)⟩

/-- Claim C8: transitions commit Loan + BookAvailability + HistoryEntry
all-or-nothing — a rejected command leaves the whole state unchanged, and in
no reachable state is a transition partially applied: every loan has exactly
one CREATED history entry and every CREATED entry belongs to an existing
loan (the availability/loan coupling is the C2 sum). -/
theorem atomic_commit (cfg : Config) (s : LMSState) (h : Reachable cfg s) :
    (∀ (c : Command) (e : ErrKind), (step cfg s c).2 = .err e → (step cfg s c).1 = s) ∧
    (∀ l ∈ s.loans, createdCount s.history l.id = 1) ∧
    (∀ en ∈ s.history, en.action = HistoryAction.CREATED →
      ∃ l ∈ s.loans, l.id = en.loan_id) :=
  ⟨fun _ _ he => step_err he,
   (reachable_inv h).createdOnce,
   (reachable_inv h).histCreatedLoan⟩

/-- Witness for C8: a concrete rejected command (second create for the
exhausted book) leaves the state exactly as it was, and the demo loan has
exactly one CREATED entry. -/
theorem atomic_commit_witness :
    ((step cfgDemo demoS3 (.createLoan "l2" 1 0 100)).2 = .err .UnavailableError ∧
      (step cfgDemo demoS3 (.createLoan "l2" 1 0 100)).1 = demoS3) ∧
    createdCount demoS3.history 0 = 1 :=
  ⟨⟨by decide,
    (atomic_commit cfgDemo demoS3 demoS3_reachable).1 (.createLoan "l2" 1 0 100)
      .UnavailableError (by decide)⟩,
   (atomic_commit cfgDemo demoS3 demoS3_reachable).2.1
     ⟨0, 1, 0, 100, 114, none, .ACTIVE, 0, false, 0, 2⟩ (by decide)⟩

/-- Claim C1: a fresh `loan.create_request` fails with CapacityError when
the user's active-loan count is at least their `max_loans`, fails with
UnavailableError when `available_copies = 0`, and otherwise commits: it
decrements the book's availability by exactly 1, creates the loan in ACTIVE
with `due_date = loan_date + loan_period` and `renewal_count = 0`, and
writes exactly one CREATED history entry; both failures leave the state
unchanged. -/
theorem createLoan_spec (cfg : Config) (s : LMSState) (dk : String) (u b : Nat)
    (today : Int) (ur : UserRec) (bk : BookAvailability)
    (hdk : dk ∉ s.committedKeys)
    (hu : lookupUser s.users u = some ur)
    (hb : lookupBook s.books b = some bk) :
    (ur.max_loans ≤ userActiveCount s.loans u →
      step cfg s (.createLoan dk u b today) = (s, .err .CapacityError)) ∧
    (userActiveCount s.loans u < ur.max_loans → bk.available_copies = 0 →
      step cfg s (.createLoan dk u b today) = (s, .err .UnavailableError)) ∧
    (userActiveCount s.loans u < ur.max_loans → bk.available_copies ≠ 0 →
      (step cfg s (.createLoan dk u b today)).2 = .ok ∧
      (step cfg s (.createLoan dk u b today)).1.loans =
        { id := s.nextLoanId, user_id := u, book_id := b, loan_date := today,
          due_date := today + (cfg.loan_period : Int), return_date := none,
          status := .ACTIVE, fine_amount := 0, fine_paid := false,
          renewal_count := 0, max_renewals := cfg.max_renewals } :: s.loans ∧
      lookupBook (step cfg s (.createLoan dk u b today)).1.books b =
        some (dropAvail bk) ∧
      (step cfg s (.createLoan dk u b today)).1.history =
        ⟨s.nextLoanId, .CREATED, u⟩ :: s.history) := by
  refine ⟨?_, ?_, ?_⟩
  · intro hcap
    have hexec : exec cfg s (.createLoan dk u b today) = (s, .err .CapacityError) := by
      simp [exec, execCreateLoan, hu, hb, hcap]
    simp [step, dedupKey?, hdk, hexec]
  · intro hcap hav
    have hnle : ¬ ur.max_loans ≤ userActiveCount s.loans u := Nat.not_le.mpr hcap
    have hexec : exec cfg s (.createLoan dk u b today) = (s, .err .UnavailableError) := by
      simp [exec, execCreateLoan, hu, hb, hnle, hav]
    simp [step, dedupKey?, hdk, hexec]
  · intro hcap hav
    have hnle : ¬ ur.max_loans ≤ userActiveCount s.loans u := Nat.not_le.mpr hcap
    have hb' : s.books.find? (fun r => r.book_id == b) = some bk := hb
    have hexec : exec cfg s (.createLoan dk u b today) =
        ({ s with
            loans :=
              { id := s.nextLoanId, user_id := u, book_id := b, loan_date := today,
                due_date := today + (cfg.loan_period : Int), return_date := none,
                status := .ACTIVE, fine_amount := 0, fine_paid := false,
                renewal_count := 0, max_renewals := cfg.max_renewals } :: s.loans,
            books := replaceFirst (fun r => r.book_id == b) dropAvail s.books,
            history := ⟨s.nextLoanId, .CREATED, u⟩ :: s.history,
            nextLoanId := s.nextLoanId + 1 }, .ok) := by
      simp [exec, execCreateLoan, hu, hb, hnle, hav]
    have hstep : step cfg s (.createLoan dk u b today) =
        ({ s with
            loans :=
              { id := s.nextLoanId, user_id := u, book_id := b, loan_date := today,
                due_date := today + (cfg.loan_period : Int), return_date := none,
                status := .ACTIVE, fine_amount := 0, fine_paid := false,
                renewal_count := 0, max_renewals := cfg.max_renewals } :: s.loans,
            books := replaceFirst (fun r => r.book_id == b) dropAvail s.books,
            history := ⟨s.nextLoanId, .CREATED, u⟩ :: s.history,
            committedKeys := dk :: s.committedKeys,
            nextLoanId := s.nextLoanId + 1 }, .ok) := by
      simp [step, dedupKey?, hdk, hexec]
    rw [hstep]
    refine ⟨rfl, rfl, ?_, rfl⟩
    have hpb : ((dropAvail bk).book_id == b) = true := by
      have : bk.book_id = b := by simpa using List.find?_some hb'
      simp [dropAvail, this]
    exact find?_replaceFirst_self hb' dropAvail hpb

/-- Witness for C1: creating the demo loan on the one-copy book commits, and
the immediately following create for the same book is rejected with
UnavailableError and changes nothing. -/
theorem createLoan_spec_witness :
    (step cfgDemo demoS2 (.createLoan "l1" 1 0 100)).2 = .ok ∧
    step cfgDemo demoS3 (.createLoan "l2" 1 0 100) = (demoS3, .err .UnavailableError) :=
  ⟨((createLoan_spec cfgDemo demoS2 "l1" 1 0 100 ⟨1, 5⟩ ⟨0, 1, 1⟩
      (by decide) (by decide) (by decide)).2.2 (by decide) (by decide)).1,
   (createLoan_spec cfgDemo demoS3 "l2" 1 0 100 ⟨1, 5⟩ ⟨0, 1, 0⟩
      (by decide) (by decide) (by decide)).2.1 (by decide) (by decide)⟩

/-- Claim C4: a fresh `loan.renew_request` commits iff the loan's status is
ACTIVE or OVERDUE and `renewal_count < max_renewals`; a RETURNED loan is
rejected with NotRenewableError, a non-RETURNED loan at its renewal limit
with RenewalLimitError; every rejection leaves the state (due date, count,
status, history) unchanged; a commit extends the due date by the loan period
from the current due date (not from today), increments the count, sets
status RENEWED and writes exactly one RENEWED history entry. -/
theorem renewLoan_spec (cfg : Config) (s : LMSState) (dk : String) (lid u : Nat)
    (l : Loan) (hdk : dk ∉ s.committedKeys)
    (hfind : s.loans.find? (fun x => x.id == lid) = some l) :
    ((step cfg s (.renewLoan dk lid u)).2 = .ok ↔
      ((l.status = .ACTIVE ∨ l.status = .OVERDUE) ∧
        l.renewal_count < l.max_renewals)) ∧
    (l.status = .RETURNED →
      step cfg s (.renewLoan dk lid u) = (s, .err .NotRenewableError)) ∧
    (l.status ≠ .RETURNED → l.max_renewals ≤ l.renewal_count →
      step cfg s (.renewLoan dk lid u) = (s, .err .RenewalLimitError)) ∧
    (∀ e, (step cfg s (.renewLoan dk lid u)).2 = .err e →
      (step cfg s (.renewLoan dk lid u)).1 = s) ∧
    ((l.status = .ACTIVE ∨ l.status = .OVERDUE) → l.renewal_count < l.max_renewals →
      (step cfg s (.renewLoan dk lid u)).2 = .ok ∧
      (step cfg s (.renewLoan dk lid u)).1.loans.find? (fun x => x.id == lid) =
        some (markRenewed cfg l) ∧
      (markRenewed cfg l).due_date = l.due_date + (cfg.loan_period : Int) ∧
      (markRenewed cfg l).renewal_count = l.renewal_count + 1 ∧
      (markRenewed cfg l).status = .RENEWED ∧
      (step cfg s (.renewLoan dk lid u)).1.history =
        ⟨lid, .RENEWED, u⟩ :: s.history) := by
  have hsucc : (l.status = .ACTIVE ∨ l.status = .OVERDUE) →
      l.renewal_count < l.max_renewals →
      step cfg s (.renewLoan dk lid u) =
        ({ s with
            loans := replaceFirst (fun x => x.id == lid) (markRenewed cfg) s.loans,
            history := ⟨lid, .RENEWED, u⟩ :: s.history,
            committedKeys := dk :: s.committedKeys }, .ok) := by
    intro hst hlim
    have hret : ¬ l.status = LoanStatus.RETURNED := by
      rcases hst with h1 | h1 <;> simp [h1]
    have hnle : ¬ l.max_renewals ≤ l.renewal_count := Nat.not_le.mpr hlim
    have hexec : exec cfg s (.renewLoan dk lid u) =
        ({ s with
            loans := replaceFirst (fun x => x.id == lid) (markRenewed cfg) s.loans,
            history := ⟨lid, .RENEWED, u⟩ :: s.history }, .ok) := by
      simp [exec, execRenewLoan, hfind, hret, hnle, hst]
    simp [step, dedupKey?, hdk, hexec]
  have herrRet : l.status = .RETURNED →
      step cfg s (.renewLoan dk lid u) = (s, .err .NotRenewableError) := by
    intro hret
    have hexec : exec cfg s (.renewLoan dk lid u) = (s, .err .NotRenewableError) := by
      simp [exec, execRenewLoan, hfind, hret]
    simp [step, dedupKey?, hdk, hexec]
  have herrLim : l.status ≠ .RETURNED → l.max_renewals ≤ l.renewal_count →
      step cfg s (.renewLoan dk lid u) = (s, .err .RenewalLimitError) := by
    intro hret hlim
    have hexec : exec cfg s (.renewLoan dk lid u) = (s, .err .RenewalLimitError) := by
      simp [exec, execRenewLoan, hfind, hret, hlim]
    simp [step, dedupKey?, hdk, hexec]
  have herrSt : l.status = .RENEWED → l.renewal_count < l.max_renewals →
      step cfg s (.renewLoan dk lid u) = (s, .err .RenewalLimitError) := by
    intro hst hlim
    have hret : ¬ l.status = LoanStatus.RETURNED := by simp [hst]
    have hnle : ¬ l.max_renewals ≤ l.renewal_count := Nat.not_le.mpr hlim
    have hnst : ¬ (l.status = LoanStatus.ACTIVE ∨ l.status = LoanStatus.OVERDUE) := by
      simp [hst]
    have hexec : exec cfg s (.renewLoan dk lid u) = (s, .err .RenewalLimitError) := by
      simp [exec, execRenewLoan, hfind, hret, hnle, hnst]
    simp [step, dedupKey?, hdk, hexec]
  refine ⟨?_, herrRet, herrLim, fun e he => step_err he, ?_⟩
  · constructor
    · intro hok
      by_cases hst : l.status = .ACTIVE ∨ l.status = .OVERDUE
      · by_cases hlim : l.renewal_count < l.max_renewals
        · exact ⟨hst, hlim⟩
        · have hret : l.status ≠ LoanStatus.RETURNED := by
            rcases hst with h1 | h1 <;> simp [h1]
          rw [herrLim hret (Nat.not_lt.mp hlim)] at hok
          simp at hok
      · cases hstat : l.status with
        | ACTIVE => exact absurd (Or.inl hstat) hst
        | OVERDUE => exact absurd (Or.inr hstat) hst
        | RETURNED =>
          rw [herrRet hstat] at hok
          simp at hok
        | RENEWED =>
          by_cases hlim : l.renewal_count < l.max_renewals
          · rw [herrSt hstat hlim] at hok
            simp at hok
          · have hret : l.status ≠ LoanStatus.RETURNED := by simp [hstat]
            rw [herrLim hret (Nat.not_lt.mp hlim)] at hok
            simp at hok
    · rintro ⟨hst, hlim⟩
      rw [hsucc hst hlim]
  · intro hst hlim
    rw [hsucc hst hlim]
    refine ⟨rfl, ?_, rfl, rfl, rfl, rfl⟩
    have hid : (l.id == lid) = true := by simpa using List.find?_some hfind
    exact find?_replaceFirst_self hfind (markRenewed cfg)
      (by simpa [markRenewed] using hid)

/-- Witness for C4: renewing the fresh demo loan commits and moves its due
date from 114 to 128 (not from today); once the loan is OVERDUE at its
renewal limit, a further request is rejected with RenewalLimitError and
changes nothing. -/
theorem renewLoan_spec_witness :
    ((step cfgDemo demoS3 (.renewLoan "r1" 0 1)).2 = .ok ∧
      (step cfgDemo demoS3 (.renewLoan "r1" 0 1)).1.loans.find?
          (fun x => x.id == 0) =
        some ⟨0, 1, 0, 100, 128, none, .RENEWED, 0, false, 1, 2⟩) ∧
    step cfgDemo demoRO2 (.renewLoan "r3" 0 1) = (demoRO2, .err .RenewalLimitError) :=
  ⟨⟨((renewLoan_spec cfgDemo demoS3 "r1" 0 1
        ⟨0, 1, 0, 100, 114, none, .ACTIVE, 0, false, 0, 2⟩
        (by decide) (by decide)).2.2.2.2 (Or.inl rfl) (by decide)).1,
    ((renewLoan_spec cfgDemo demoS3 "r1" 0 1
        ⟨0, 1, 0, 100, 114, none, .ACTIVE, 0, false, 0, 2⟩
        (by decide) (by decide)).2.2.2.2 (Or.inl rfl) (by decide)).2.1⟩,
   (renewLoan_spec cfgDemo demoRO2 "r3" 0 1
      ⟨0, 1, 0, 100, 142, none, .OVERDUE, 0, false, 2, 2⟩
      (by decide) (by decide)).2.2.1 (by decide) (by decide)⟩

/-- Claim C3: a command whose dedup key was already committed is
acknowledged as a no-op success with all state and history unchanged; in
particular, delivering the same committed `loan.create_request` twice yields
exactly one new Loan and exactly one CREATED history entry, and the replay
is the no-op. -/
theorem dedup_idempotent (cfg : Config) :
    (∀ (s : LMSState) (c : Command) (k : String),
      dedupKey? c = some k → k ∈ s.committedKeys → step cfg s c = (s, .okNoop)) ∧
    (∀ (s : LMSState) (dk : String) (u b : Nat) (today : Int), Inv s →
      dk ∉ s.committedKeys →
      (step cfg s (.createLoan dk u b today)).2 = .ok →
      step cfg (step cfg s (.createLoan dk u b today)).1 (.createLoan dk u b today) =
        ((step cfg s (.createLoan dk u b today)).1, .okNoop) ∧
      (step cfg s (.createLoan dk u b today)).1.loans.length = s.loans.length + 1 ∧
      createdCount (step cfg s (.createLoan dk u b today)).1.history s.nextLoanId = 1 ∧
      (step cfg s (.createLoan dk u b today)).1.history.length =
        s.history.length + 1) := by
  have hreplay : ∀ (s : LMSState) (c : Command) (k : String),
      dedupKey? c = some k → k ∈ s.committedKeys → step cfg s c = (s, .okNoop) := by
    intro s c k hk hmem
    simp [step, hk, hmem]
  refine ⟨hreplay, ?_⟩
  intro s dk u b today hinv hdk hok
  rcases hexec : exec cfg s (.createLoan dk u b today) with ⟨s', o⟩
  have hexec' : execCreateLoan cfg s u b today = (s', o) := hexec
  cases o with
  | ok =>
    have hstep : step cfg s (.createLoan dk u b today) =
        ({ s' with committedKeys := dk :: s'.committedKeys }, .ok) := by
      simp [step, dedupKey?, hdk, hexec]
    obtain ⟨hl, hh, hk⟩ :=
      @execCreateLoan_ok cfg s u b today (by rw [hexec'])
    rw [hexec'] at hl hh hk
    have hl2 : s'.loans =
        { id := s.nextLoanId, user_id := u, book_id := b, loan_date := today,
          due_date := today + (cfg.loan_period : Int), return_date := none,
          status := .ACTIVE, fine_amount := 0, fine_paid := false,
          renewal_count := 0, max_renewals := cfg.max_renewals } :: s.loans := hl
    have hh2 : s'.history = ⟨s.nextLoanId, .CREATED, u⟩ :: s.history := hh
    have hs1 : (step cfg s (.createLoan dk u b today)).1 =
        { s' with committedKeys := dk :: s'.committedKeys } := by rw [hstep]
    refine ⟨?_, ?_, ?_, ?_⟩
    · refine hreplay _ _ dk rfl ?_
      rw [hs1]
      exact List.mem_cons_self _ _
    · rw [hs1]
      show s'.loans.length = s.loans.length + 1
      rw [hl2]
      rfl
    · rw [hs1]
      show createdCount s'.history s.nextLoanId = 1
      have hz : List.countP
          (fun e => e.loan_id == s.nextLoanId && e.action == HistoryAction.CREATED)
          s.history = 0 := by
        refine List.countP_eq_zero.mpr ?_
        intro e he
        have hlt := hinv.histLt e he
        simp [Nat.ne_of_lt hlt]
      rw [createdCount, hh2, List.countP_cons, hz]
      simp
    · rw [hs1]
      show s'.history.length = s.history.length + 1
      rw [hh2]
      rfl
  | okNoop =>
    have hstep : step cfg s (.createLoan dk u b today) = (s', .okNoop) := by
      simp [step, dedupKey?, hdk, hexec]
    rw [hstep] at hok
    simp at hok
  | err e =>
    have hstep : step cfg s (.createLoan dk u b today) = (s', .err e) := by
      simp [step, dedupKey?, hdk, hexec]
    rw [hstep] at hok
    simp at hok

/-- Witness for C3: replaying the committed demo `loan.create_request` is a
no-op success, and after the first (committed) delivery there is exactly one
loan and exactly one CREATED entry. -/
theorem dedup_idempotent_witness :
    step cfgDemo demoS3 (.createLoan "l1" 1 0 100) = (demoS3, .okNoop) ∧
    (step cfgDemo demoS2 (.createLoan "l1" 1 0 100)).1.loans.length =
      demoS2.loans.length + 1 ∧
    createdCount (step cfgDemo demoS2 (.createLoan "l1" 1 0 100)).1.history 0 = 1 :=
  ⟨(dedup_idempotent cfgDemo).1 demoS3 (.createLoan "l1" 1 0 100) "l1" rfl (by decide),
   ((dedup_idempotent cfgDemo).2 demoS2 "l1" 1 0 100
      (reachable_inv demoS2_reachable) (by decide) (by decide)).2.1,
   ((dedup_idempotent cfgDemo).2 demoS2 "l1" 1 0 100
      (reachable_inv demoS2_reachable) (by decide) (by decide)).2.2.1⟩

/-- No handler ever changes a RETURNED loan: the loan found first under its
id is the same record after any command is executed. -/
theorem exec_preserves_returned {cfg : Config} {s : LMSState} (hinv : Inv s)
    {lid : Nat} {l : Loan}
    (hfind : s.loans.find? (fun x => x.id == lid) = some l)
    (hret : l.status = LoanStatus.RETURNED) (c : Command) :
    (exec cfg s c).1.loans.find? (fun x => x.id == lid) = some l := by
  have hlmem := List.mem_of_find?_eq_some hfind
  have hlid : l.id = lid := by simpa using List.find?_some hfind
  cases c with
  | createUser dk u m => exact hfind
  | createBook dk total => exact hfind
  | updateBook dk b total =>
    cases hfb : lookupBook s.books b with
    | none => simpa [exec, execUpdateBook, hfb] using hfind
    | some bk =>
      by_cases hval : bk.total_copies ≤ bk.available_copies + total <;>
        simpa [exec, execUpdateBook, hfb, hval] using hfind
  | deleteBook dk b =>
    cases hfb : lookupBook s.books b with
    | none => simpa [exec, execDeleteBook, hfb] using hfind
    | some bk => simpa [exec, execDeleteBook, hfb] using hfind
  | createLoan dk u b today =>
    cases hfu : lookupUser s.users u with
    | none => simpa [exec, execCreateLoan, hfu] using hfind
    | some ur =>
      by_cases hcap : ur.max_loans ≤ userActiveCount s.loans u
      · simpa [exec, execCreateLoan, hfu, hcap] using hfind
      · cases hfb : lookupBook s.books b with
        | none => simpa [exec, execCreateLoan, hfu, hcap, hfb] using hfind
        | some bk =>
          by_cases hav : bk.available_copies = 0
          · simpa [exec, execCreateLoan, hfu, hcap, hfb, hav] using hfind
          · have hred : (exec cfg s (.createLoan dk u b today)).1.loans =
                { id := s.nextLoanId, user_id := u, book_id := b, loan_date := today,
                  due_date := today + (cfg.loan_period : Int), return_date := none,
                  status := .ACTIVE, fine_amount := 0, fine_paid := false,
                  renewal_count := 0, max_renewals := cfg.max_renewals } :: s.loans := by
              simp [exec, execCreateLoan, hfu, hcap, hfb, hav]
            rw [hred]
            have hlt : lid < s.nextLoanId := hlid ▸ hinv.loanLt l hlmem
            rw [List.find?_cons_of_neg _ (by simp [Nat.ne_of_gt hlt])]
            exact hfind
  | returnLoan dk lid' u' today =>
    cases hfind' : s.loans.find? (fun x => x.id == lid') with
    | none => simpa [exec, execReturnLoan, hfind'] using hfind
    | some a =>
      by_cases ha : a.status = LoanStatus.RETURNED
      · simpa [exec, execReturnLoan, hfind', ha] using hfind
      · have hne : lid' ≠ lid := by
          intro he
          subst he
          rw [hfind'] at hfind
          exact ha (Option.some_inj.mp hfind ▸ hret)
        have haid : a.id = lid' := by simpa using List.find?_some hfind'
        obtain ⟨L1, L2, hxs, hL1, hrf⟩ := find?_decomp hfind'
        have hq1 : ((a.id == lid) = false) := by simp [haid, hne]
        have hq2 : (((markReturned cfg today a).id == lid) = false) := by
          simp [markReturned, haid, hne]
        have hred : (exec cfg s (.returnLoan dk lid' u' today)).1.loans =
            replaceFirst (fun x => x.id == lid') (markReturned cfg today) s.loans := by
          simp [exec, execReturnLoan, hfind', ha]
        rw [hred, hrf, find?_middle_congr L1 hq1 hq2, ← hxs]
        exact hfind
  | renewLoan dk lid' u' =>
    cases hfind' : s.loans.find? (fun x => x.id == lid') with
    | none => simpa [exec, execRenewLoan, hfind'] using hfind
    | some a =>
      by_cases ha : a.status = LoanStatus.RETURNED
      · simpa [exec, execRenewLoan, hfind', ha] using hfind
      · by_cases hlim : a.max_renewals ≤ a.renewal_count
        · simpa [exec, execRenewLoan, hfind', ha, hlim] using hfind
        · by_cases hst : a.status = LoanStatus.ACTIVE ∨ a.status = LoanStatus.OVERDUE
          · have hne : lid' ≠ lid := by
              intro he
              subst he
              rw [hfind'] at hfind
              exact ha (Option.some_inj.mp hfind ▸ hret)
            have haid : a.id = lid' := by simpa using List.find?_some hfind'
            obtain ⟨L1, L2, hxs, hL1, hrf⟩ := find?_decomp hfind'
            have hq1 : ((a.id == lid) = false) := by simp [haid, hne]
            have hq2 : (((markRenewed cfg a).id == lid) = false) := by
              simp [markRenewed, haid, hne]
            have hred : (exec cfg s (.renewLoan dk lid' u')).1.loans =
                replaceFirst (fun x => x.id == lid') (markRenewed cfg) s.loans := by
              simp [exec, execRenewLoan, hfind', ha, hlim, hst]
            rw [hred, hrf, find?_middle_congr L1 hq1 hq2, ← hxs]
            exact hfind
          · simpa [exec, execRenewLoan, hfind', ha, hlim, hst] using hfind
  | overdueSweep today =>
    have hq : ∀ x : Loan,
        (((if sweepable today x then { x with status := LoanStatus.OVERDUE } else x) :
          Loan).id == lid) = (x.id == lid) := by
      intro x
      by_cases hsw : sweepable today x <;> simp [hsw]
    have hred : (exec cfg s (.overdueSweep today)).1.loans =
        s.loans.map (fun x =>
          if sweepable today x then { x with status := LoanStatus.OVERDUE } else x) := rfl
    rw [hred, find?_map_congr hq, hfind]
    have hsw : sweepable today l = false := by simp [sweepable, hret]
    simp [hsw]

/-- Claim C7 (amended): RETURNED is terminal — no command changes a RETURNED
loan; a fresh return request for it is rejected with ConflictError, a fresh
renew request with NotRenewableError (not ConflictError — this is the
amendment), never silently ignored; and an exact dedup replay of a committed
command (in particular the original return) succeeds as a no-op. -/
theorem returned_terminal (cfg : Config) (s : LMSState) (hinv : Inv s) (lid : Nat)
    (l : Loan) (hfind : s.loans.find? (fun x => x.id == lid) = some l)
    (hret : l.status = LoanStatus.RETURNED) :
    (∀ c : Command, (step cfg s c).1.loans.find? (fun x => x.id == lid) = some l) ∧
    (∀ (dk : String) (u : Nat) (today : Int), dk ∉ s.committedKeys →
      step cfg s (.returnLoan dk lid u today) = (s, .err .ConflictError)) ∧
    (∀ (dk : String) (u : Nat), dk ∉ s.committedKeys →
      step cfg s (.renewLoan dk lid u) = (s, .err .NotRenewableError)) ∧
    (∀ (c : Command) (k : String), dedupKey? c = some k → k ∈ s.committedKeys →
      step cfg s c = (s, .okNoop)) := by
  refine ⟨?_, ?_, ?_, ?_⟩
  · intro c
    cases hdk : dedupKey? c with
    | none =>
      have hs : step cfg s c = exec cfg s c := by simp [step, hdk]
      rw [hs]
      exact exec_preserves_returned hinv hfind hret c
    | some k =>
      by_cases hmem : k ∈ s.committedKeys
      · have hs : step cfg s c = (s, .okNoop) := by simp [step, hdk, hmem]
        rw [hs]
        exact hfind
      · rcases hexec : exec cfg s c with ⟨s', o⟩
        have hpres := @exec_preserves_returned cfg s hinv lid l hfind hret c
        rw [hexec] at hpres
        cases o with
        | ok =>
          have hs : step cfg s c =
              ({ s' with committedKeys := k :: s'.committedKeys }, .ok) := by
            simp [step, hdk, hmem, hexec]
          rw [hs]
          exact hpres
        | okNoop =>
          have hs : step cfg s c = (s', .okNoop) := by simp [step, hdk, hmem, hexec]
          rw [hs]
          exact hpres
        | err e =>
          have hs : step cfg s c = (s', .err e) := by simp [step, hdk, hmem, hexec]
          rw [hs]
          exact hpres
  · intro dk u today hdk
    have hexec : exec cfg s (.returnLoan dk lid u today) = (s, .err .ConflictError) := by
      simp [exec, execReturnLoan, hfind, hret]
    simp [step, dedupKey?, hdk, hexec]
  · intro dk u hdk
    have hexec : exec cfg s (.renewLoan dk lid u) = (s, .err .NotRenewableError) := by
      simp [exec, execRenewLoan, hfind, hret]
    simp [step, dedupKey?, hdk, hexec]
  · intro c k hk hmem
    simp [step, hk, hmem]

/-- Counterexample to C7 as stated: for the returned demo loan, a renew
request is rejected — but with NotRenewableError, not with the claimed
conflict error. -/
theorem returned_conflict_counterexample :
    (step cfgDemo demoS4 (.renewLoan "r9" 0 1)).2 = .err .NotRenewableError ∧
    (step cfgDemo demoS4 (.renewLoan "r9" 0 1)).2 ≠ .err .ConflictError := by
  exact ⟨by decide, by decide⟩

/-- Witness for amended C7 at the returned demo loan: the overdue sweep does
not touch it, a fresh return is a ConflictError, a fresh renew a
NotRenewableError, and replaying the original return command is a no-op
success. -/
theorem returned_terminal_witness :
    (step cfgDemo demoS4 (.overdueSweep 200)).1.loans.find? (fun x => x.id == 0) =
      some ⟨0, 1, 0, 100, 114, some 128, .RETURNED, 140, false, 0, 2⟩ ∧
    step cfgDemo demoS4 (.returnLoan "ret2" 0 1 129) = (demoS4, .err .ConflictError) ∧
    step cfgDemo demoS4 (.renewLoan "r8" 0 1) = (demoS4, .err .NotRenewableError) ∧
    step cfgDemo demoS4 (.returnLoan "ret1" 0 1 128) = (demoS4, .okNoop) :=
  ⟨(returned_terminal cfgDemo demoS4 (reachable_inv demoS4_reachable) 0
      ⟨0, 1, 0, 100, 114, some 128, .RETURNED, 140, false, 0, 2⟩
      (by decide) (by decide)).1 (.overdueSweep 200),
   (returned_terminal cfgDemo demoS4 (reachable_inv demoS4_reachable) 0
      ⟨0, 1, 0, 100, 114, some 128, .RETURNED, 140, false, 0, 2⟩
      (by decide) (by decide)).2.1 "ret2" 1 129 (by decide),
   (returned_terminal cfgDemo demoS4 (reachable_inv demoS4_reachable) 0
      ⟨0, 1, 0, 100, 114, some 128, .RETURNED, 140, false, 0, 2⟩
      (by decide) (by decide)).2.2.1 "r8" 1 (by decide),
   (returned_terminal cfgDemo demoS4 (reachable_inv demoS4_reachable) 0
      ⟨0, 1, 0, 100, 114, some 128, .RETURNED, 140, false, 0, 2⟩
      (by decide) (by decide)).2.2.2 (.returnLoan "ret1" 0 1 128) "ret1" rfl
     (by decide)⟩

end LMS
